import Mathlib

/-!
# Bulk user management service: request handlers and error classifier

A shallow embedding of `routes/userRoutes.js` and `middleware/errorHandler.js`.

JavaScript values are embedded as the type `JVal`.  A number is a double: `NaN`,
an infinity, or a finite value given by the rational it denotes, and every
arithmetic result is rounded to the nearest double.  A `Date` carries its epoch
milliseconds, and an object is the list of its own enumerable properties in
own-property order.  A JavaScript exception is the `error` side of
`Except JVal`.  The document store is an external collaborator: a handler is
given the answer of the store to each call it makes, a value or a thrown
failure.
-/

namespace BulkUsers

/-! ## Numbers -/

/-- A JavaScript number: `NaN`, `Infinity` or `-Infinity`, or a finite double
given by its value.  The value `0` stands for both zeros, which compare equal,
are both falsy and serialise alike. -/
inductive JNum where
  | nan : JNum
  | inf (negative : Bool) : JNum
  | fin (q : ℚ) : JNum
  deriving DecidableEq

instance (n : Nat) : OfNat JNum n := ⟨.fin n⟩

/-- Rounding of a rational to an integer, a tie going to the even neighbour. -/
def roundHalfEven (x : ℚ) : Int :=
  if x - Int.floor x < 1 / 2 then Int.floor x
  else if 1 / 2 < x - Int.floor x then Int.floor x + 1
  else if Int.floor x % 2 = 0 then Int.floor x
  else Int.floor x + 1

/-- The double nearest to a rational, as every arithmetic operation rounds its
exact result: binary64 has 53 significant bits, its least exponent is -1022, a
tie goes to the even significand, and a magnitude that rounds to `2^1024`
becomes an infinity. -/
def toDouble (q : ℚ) : JNum :=
  if q = 0 then .fin 0
  else
    let e : Int := max (Int.log 2 |q|) (-1022)
    let ulp : ℚ := (2 : ℚ) ^ (e - 52)
    let r : ℚ := (roundHalfEven (|q| / ulp) : ℚ) * ulp
    if (2 : ℚ) ^ (1024 : Nat) ≤ r then .inf (decide (q < 0))
    else .fin (if q < 0 then -r else r)

namespace JNum

/-- Unary minus. -/
def neg : JNum → JNum
  | nan => nan
  | inf s => inf (!s)
  | fin q => fin (-q)

instance : Neg JNum := ⟨neg⟩

/-- Truthiness of a number: `NaN` and `0` are falsy. -/
def truthy : JNum → Bool
  | nan => false
  | inf _ => true
  | fin q => q != 0

/-- The difference `a - b`. -/
def sub : JNum → JNum → JNum
  | fin a, fin b => toDouble (a - b)
  | fin _, inf t => inf (!t)
  | inf s, fin _ => inf s
  | inf s, inf t => if s = t then nan else inf s
  | _, _ => nan

/-- The product `a * b`. -/
def mul : JNum → JNum → JNum
  | fin a, fin b => toDouble (a * b)
  | fin a, inf t => if a = 0 then nan else inf (decide (a < 0) != t)
  | inf s, fin b => if b = 0 then nan else inf (s != decide (b < 0))
  | inf s, inf t => inf (s != t)
  | _, _ => nan

/-- The quotient `a / b`; a zero divisor is taken as the positive zero. -/
def div : JNum → JNum → JNum
  | fin a, fin b =>
    if b = 0 then (if a = 0 then nan else inf (decide (a < 0))) else toDouble (a / b)
  | fin _, inf _ => fin 0
  | inf s, fin b => inf (s != decide (b < 0))
  | _, _ => nan

/-- The call `Math.ceil(x)`. -/
def ceil : JNum → JNum
  | fin q => fin (Int.ceil q)
  | x => x

end JNum

/-! ## Values -/

/-- JavaScript values that reach the handlers.  `surrogate c` is the string of
one UTF-16 code unit `c` that is half of a surrogate pair, as produced by
indexing a string; `builtin f` is the method `f` of a built-in prototype, as
produced by reading `filter` or `map` on an array. -/
inductive JVal where
  | undefined : JVal
  | null : JVal
  | bool (b : Bool) : JVal
  | num (x : JNum) : JVal
  | str (s : String) : JVal
  | surrogate (code : Nat) : JVal
  | date (ms : Int) : JVal
  | builtin (method : String) : JVal
  | arr (items : List JVal) : JVal
  | obj (props : List (String × JVal)) : JVal

namespace JVal

/-- Truthiness, as tested by `if (v)` and by `v || d`. -/
def truthy : JVal → Bool
  | undefined => false
  | null => false
  | bool b => b
  | num x => x.truthy
  | str s => s != ""
  | surrogate _ => true
  | date _ => true
  | builtin _ => true
  | arr _ => true
  | obj _ => true

/-- The test `Array.isArray(v)`. -/
def isArray : JVal → Bool
  | arr _ => true
  | _ => false

/-- The test `v === s` against a string literal `s`. -/
def strictEqStr (v : JVal) (s : String) : Bool :=
  match v with
  | str t => t == s
  | _ => false

/-- The test `v === n` against a number literal `n`. -/
def strictEqNum (v : JVal) (n : ℚ) : Bool :=
  match v with
  | num (.fin q) => q == n
  | _ => false

/-- The expression `a || b`. -/
def orElse (a b : JVal) : JVal := if a.truthy then a else b

end JVal

open JVal

/-- Number of UTF-16 code units of a string, the value of its `length`. -/
def utf16Length (s : String) : Nat :=
  (s.toList.map (fun c => if c.toNat < 65536 then 1 else 2)).sum

/-- The one-unit strings that index a character of a string: the character
itself in the basic plane, the two halves of its surrogate pair above it. -/
def utf16Units (c : Char) : List JVal :=
  if c.toNat < 65536 then [str (String.singleton c)]
  else [surrogate (55296 + (c.toNat - 65536) / 1024),
        surrogate (56320 + (c.toNat - 65536) % 1024)]

/-- Index properties `"0"`, `"1"`, ... of an array-like list of values. -/
def indexProps (xs : List JVal) : List (String × JVal) :=
  xs.enum.map (fun p => (toString p.1, p.2))

/-- Own enumerable string-keyed properties of a value, in own-property order:
the entries of an object, the indices of an array, the UTF-16 code units of a
string, nothing for the other primitives, for a `Date` and for a function. -/
def ownProps : JVal → List (String × JVal)
  | obj ps => ps
  | arr xs => indexProps xs
  | str s => indexProps (s.toList.map utf16Units).flatten
  | surrogate c => [("0", surrogate c)]
  | _ => []

/-- The names returned by `Object.keys(v)` for a value that is not nullish. -/
def ownKeys (v : JVal) : List String := (ownProps v).map Prod.fst

/-- Value found under a key in a property list, `undefined` when it is absent. -/
def lookupProp (ps : List (String × JVal)) (k : String) : JVal :=
  (ps.lookup k).getD undefined

/-- Result of reading `v.k` on a value that is not nullish, for the names `k`
that the handlers read.  Of those names the built-in prototypes define `length`
(arrays, strings, functions), `filter` and `map` (arrays) and `name`
(functions); every other one is found among the own properties or is
`undefined`. -/
def field (v : JVal) (k : String) : JVal :=
  match v with
  | obj ps => lookupProp ps k
  | arr xs =>
    if k == "length" then num (.fin xs.length)
    else if k == "filter" || k == "map" then builtin k
    else lookupProp (indexProps xs) k
  | str s =>
    if k == "length" then num (.fin (utf16Length s)) else lookupProp (ownProps (str s)) k
  | surrogate c => if k == "length" then num 1 else lookupProp (ownProps (surrogate c)) k
  | builtin f => if k == "name" then str f else if k == "length" then num 1 else undefined
  | _ => undefined

/-- The `TypeError` raised by the engine. -/
def typeError (msg : String) : JVal :=
  obj [("name", str "TypeError"), ("message", str msg)]

/-- The property read `v.k`: throws on `undefined` and `null`. -/
def getProp (v : JVal) (k : String) : Except JVal JVal :=
  match v with
  | undefined => .error (typeError ("Cannot read properties of undefined (reading '" ++ k ++ "')"))
  | null => .error (typeError ("Cannot read properties of null (reading '" ++ k ++ "')"))
  | w => .ok (field w k)

/-- Define or overwrite one property, `CreateDataProperty`: an existing key
keeps its position, a new key goes last. -/
def setProp : List (String × JVal) → String → JVal → List (String × JVal)
  | [], k, v => [(k, v)]
  | (k0, v0) :: rest, k, v =>
    if k0 = k then (k, v) :: rest else (k0, v0) :: setProp rest k v

/-- The spread `...src` inside an object literal, `CopyDataProperties`: each own
enumerable key of `src` is read and defined on the target; `undefined` and
`null` contribute nothing. -/
def copyDataProperties (target : List (String × JVal)) (src : JVal) : List (String × JVal) :=
  (ownKeys src).foldl (fun t k => setProp t k (lookupProp (ownProps src) k)) target

/-! ## Bulk operation translator (`operations.map` in `PUT /bulk-update`) -/

/-- The literal `{ $set: { ...update, updatedAt: new Date() } }`. -/
def setDoc (now : Int) (update : JVal) : JVal :=
  obj [("$set", obj (setProp (copyDataProperties [] update) "updatedAt" (date now)))]

/-- The callback of `operations.map`, run on one operation at server time
`now`. -/
def translateOp (now : Int) (op : JVal) : Except JVal JVal := do
  let one ← getProp op "updateOne"
  if one.truthy then
    let payload ← getProp op "updateOne"
    let flt ← getProp payload "filter"
    let payload2 ← getProp op "updateOne"
    let upd ← getProp payload2 "update"
    pure (obj [("updateOne", obj [("filter", flt), ("update", setDoc now upd)])])
  else
    let many ← getProp op "updateMany"
    if many.truthy then
      let payload ← getProp op "updateMany"
      let flt ← getProp payload "filter"
      let payload2 ← getProp op "updateMany"
      let upd ← getProp payload2 "update"
      pure (obj [("updateMany", obj [("filter", flt), ("update", setDoc now upd)])])
    else
      pure op

/-- The call `operations.map(...)` from index `i` on; `now j` is the server
time at which the callback runs on the operation at index `j`.  The first
exception ends the map. -/
def translateFrom (now : Nat → Int) : Nat → List JVal → Except JVal (List JVal)
  | _, [] => .ok []
  | i, op :: rest => do
    let o ← translateOp (now i) op
    let os ← translateFrom now (i + 1) rest
    pure (o :: os)

/-- The list `bulkOps` built from the request body `operations`. -/
def translateOps (now : Nat → Int) (ops : List JVal) : Except JVal (List JVal) :=
  translateFrom now 0 ops

/-! ## The store boundary and what a handler run leaves behind

The document store is outside the repository.  A handler is given, for each
call it makes, the answer of the store to that call. -/

/-- One call made on the model `User`. -/
inductive StoreCall where
  | insertMany (docs : List JVal) (options : JVal) : StoreCall
  | bulkWrite (ops : List JVal) (options : JVal) : StoreCall
  | find (skip limit : JNum) : StoreCall
  | countDocuments : StoreCall

/-- Answer of the store to `User.insertMany(docs, options)`: the created
documents, or a thrown failure. -/
abbrev InsertMany := List JVal → JVal → Except JVal (List JVal)

/-- Answer of the store to `User.collection.bulkWrite(ops, options)`: the
result object, or a thrown failure. -/
abbrev BulkWrite := List JVal → JVal → Except JVal JVal

/-- Answer of the store to `User.find().skip(skip).limit(limit)`. -/
abbrev Find := JNum → JNum → Except JVal (List JVal)

/-- Answer of the store to `User.countDocuments()`. -/
abbrev CountDocuments := Except JVal Nat

/-- How a handler ends: it sends a response with `res.status(s).json(body)`,
it forwards a failure with `next(err)`, or an exception escapes it. -/
inductive Outcome where
  | respond (status : JVal) (body : JVal) : Outcome
  | next (err : JVal) : Outcome
  | throws (err : JVal) : Outcome

/-- Store calls made by a handler, in order, and the way it ended. -/
structure Run where
  calls : List StoreCall
  outcome : Outcome

/-- An exception that leaves a `catch` block or the error middleware escapes. -/
def finish (r : Except JVal Outcome) : Outcome :=
  match r with
  | .ok o => o
  | .error e => .throws e

/-- Sequential map of a callback that may throw. -/
def mapExcept (f : JVal → Except JVal JVal) : List JVal → Except JVal (List JVal)
  | [] => .ok []
  | x :: xs => do
    let y ← f x
    let ys ← mapExcept f xs
    pure (y :: ys)

/-- The method call `v.map(f)`, where `expr` is the source text of `v`: an array
is mapped; on any other value the read of `map` throws when the value is
nullish and does not give a function otherwise (request and failure data hold
no functions). -/
def callMap (expr : String) (v : JVal) (f : JVal → Except JVal JVal) : Except JVal JVal :=
  match v with
  | arr xs => (mapExcept f xs).map arr
  | w => do
    let _ ← getProp w "map"
    .error (typeError (expr ++ ".map is not a function"))

/-- The body `{success: false, statusCode: 400, message}` of an inline
rejection. -/
def badRequest (message : String) : Outcome :=
  .respond (num 400)
    (obj [("success", bool false), ("statusCode", num 400), ("message", str message)])

/-! ## `POST /bulk-create` -/

/-- The `catch` block of `POST /bulk-create`. -/
def createCatch (error : JVal) : Except JVal Outcome := do
  let name ← getProp error "name"
  if name.strictEqStr "BulkWriteError" then
    let result ← getProp error "result"
    let docs ← getProp result "insertedDocs"
    let inserted := docs.orElse (arr [])
    let insertedCount ← getProp inserted "length"
    let writeErrors ← getProp error "writeErrors"
    let failedCount ← getProp writeErrors "length"
    let writeErrors2 ← getProp error "writeErrors"
    let errors ← callMap "error.writeErrors" writeErrors2 (fun e => do
      let index ← getProp e "index"
      let errmsg ← getProp e "errmsg"
      pure (obj [("index", index), ("errmsg", errmsg)]))
    pure (.respond (num 207)
      (obj [("success", bool false), ("statusCode", num 207),
            ("message", str "Partial bulk create - some documents failed"),
            ("insertedCount", insertedCount), ("failedCount", failedCount),
            ("insertedDocs", inserted), ("errors", errors)]))
  else
    pure (.next error)

/-- The options literal `{ ordered: false }` passed to `insertMany`. -/
def unorderedOptions : JVal := obj [("ordered", bool false)]

/-- The handler of `POST /bulk-create` on the parsed request body. -/
def bulkCreate (insertMany : InsertMany) (body : JVal) : Run :=
  let users := if body.isArray then body else arr [body]
  match users with
  | arr us =>
    if us.length = 0 then
      ⟨[], badRequest "Array cannot be empty"⟩
    else
      match insertMany us unorderedOptions with
      | .ok createdUsers =>
        ⟨[.insertMany us unorderedOptions],
          .respond (num 201)
            (obj [("success", bool true), ("statusCode", num 201),
                  ("message", str ("Successfully created " ++ toString createdUsers.length ++ " users")),
                  ("data", arr createdUsers)])⟩
      | .error error => ⟨[.insertMany us unorderedOptions], finish (createCatch error)⟩
  | _ => ⟨[], badRequest "Request body must be an array of user objects"⟩

/-! ## `PUT /bulk-update` -/

/-- The `catch` block of `PUT /bulk-update`. -/
def updateCatch (error : JVal) : Except JVal Outcome := do
  let name ← getProp error "name"
  if name.strictEqStr "BulkWriteError" then
    let r1 ← getProp error "result"
    let matched ← getProp r1 "matchedCount"
    let r2 ← getProp error "result"
    let modified ← getProp r2 "modifiedCount"
    let r3 ← getProp error "result"
    let upserted ← getProp r3 "upsertedCount"
    let writeErrors ← getProp error "writeErrors"
    pure (.respond (num 207)
      (obj [("success", bool false), ("statusCode", num 207),
            ("message", str "Partial bulk update - some operations failed"),
            ("data", obj [("matched", matched), ("modified", modified), ("upserted", upserted)]),
            ("errors", writeErrors)]))
  else
    pure (.next error)

/-- The success response of `PUT /bulk-update`, built from the store result. -/
def updateSuccess (result : JVal) : Except JVal Outcome := do
  let matched ← getProp result "matchedCount"
  let modified ← getProp result "modifiedCount"
  let upserted ← getProp result "upsertedCount"
  let deleted ← getProp result "deletedCount"
  let inserted ← getProp result "insertedCount"
  pure (.respond (num 200)
    (obj [("success", bool true), ("statusCode", num 200),
          ("message", str "Bulk update completed successfully"),
          ("data", obj [("matched", matched), ("modified", modified), ("upserted", upserted),
                        ("deletedCount", deleted), ("insertedCount", inserted)])]))

/-- The handler of `PUT /bulk-update` on the parsed request body; `now j` is the
server time read while operation `j` is translated.  `bulkWrite` is called with
the operation list alone, so its options argument is `undefined`. -/
def bulkUpdate (bulkWrite : BulkWrite) (now : Nat → Int) (body : JVal) : Run :=
  match body with
  | arr operations =>
    if operations.length = 0 then
      ⟨[], badRequest "Operations array cannot be empty"⟩
    else
      match translateOps now operations with
      | .error error => ⟨[], finish (updateCatch error)⟩
      | .ok bulkOps =>
        match bulkWrite bulkOps undefined with
        | .error error => ⟨[.bulkWrite bulkOps undefined], finish (updateCatch error)⟩
        | .ok result =>
          match updateSuccess result with
          | .ok o => ⟨[.bulkWrite bulkOps undefined], o⟩
          | .error error => ⟨[.bulkWrite bulkOps undefined], finish (updateCatch error)⟩
  | _ => ⟨[], badRequest "Request body must be an array of update operations"⟩

/-! ## `GET /` (list) -/

/-- A value of the parsed query string `req.query`: a string, an array or a
nested object. -/
inductive QVal where
  | str (s : String) : QVal
  | arr (items : List QVal) : QVal
  | obj (props : List (String × QVal)) : QVal

mutual
/-- The conversion `ToString` of a query value: an array is joined with commas
and an object reads `[object Object]`. -/
def QVal.text : QVal → String
  | .str s => s
  | .arr xs => QVal.joinText xs
  | .obj _ => "[object Object]"
/-- The text of `Array.prototype.join` with the separator `,`. -/
def QVal.joinText : List QVal → String
  | [] => ""
  | [x] => QVal.text x
  | x :: y :: rest => QVal.text x ++ "," ++ QVal.joinText (y :: rest)
end

/-- The conversion `ToString` of `req.query.name`, which is `undefined` when
the parameter is absent. -/
def queryText (v : Option QVal) : String :=
  match v with
  | none => "undefined"
  | some w => w.text

/-- White space and line terminators skipped by `parseInt`. -/
def isStrWhiteSpace (c : Char) : Bool :=
  let n := c.toNat
  n = 9 || n = 10 || n = 11 || n = 12 || n = 13 || n = 32 || n = 160 || n = 5760 ||
  (8192 ≤ n && n ≤ 8202) || n = 8232 || n = 8233 || n = 8239 || n = 8287 ||
  n = 12288 || n = 65279

/-- Value of a character as a digit in the given radix. -/
def digitValue (radix : Nat) (c : Char) : Option Nat :=
  let n := c.toNat
  let v : Option Nat :=
    if 48 ≤ n && n ≤ 57 then some (n - 48)
    else if 97 ≤ n && n ≤ 122 then some (n - 87)
    else if 65 ≤ n && n ≤ 90 then some (n - 55)
    else none
  match v with
  | some d => if d < radix then some d else none
  | none => none

/-- Read the longest run of digits at the head of the text; `acc` is the value
read so far and `seen` tells whether a digit was read. -/
def readDigits (radix : Nat) : List Char → Nat → Bool → Option Nat
  | [], acc, seen => if seen then some acc else none
  | c :: cs, acc, seen =>
    match digitValue radix c with
    | some d => readDigits radix cs (acc * radix + d) true
    | none => if seen then some acc else none

/-- The digits of `parseInt` after the sign: a `0x` or `0X` head selects
radix 16, otherwise the radix is 10. -/
def readMagnitude : List Char → Option Nat
  | '0' :: 'x' :: cs => readDigits 16 cs 0 false
  | '0' :: 'X' :: cs => readDigits 16 cs 0 false
  | cs => readDigits 10 cs 0 false

/-- The mathematical integer that `parseInt(text)` reads with no radix
argument, before it is turned into a number; `none` when no digit is read. -/
def parseIntMath (text : String) : Option Int :=
  match text.toList.dropWhile isStrWhiteSpace with
  | '-' :: cs => (readMagnitude cs).map (fun m => -(m : Int))
  | '+' :: cs => (readMagnitude cs).map (fun m => (m : Int))
  | cs => (readMagnitude cs).map (fun m => (m : Int))

/-- The call `parseInt(text)`: the number nearest to the integer read, or `NaN`
when no digit is read. -/
def parseIntText (text : String) : JNum :=
  match parseIntMath text with
  | some n => toDouble n
  | none => .nan

/-- The call `parseInt(req.query.name)`. -/
def parseInt (v : Option QVal) : JNum := parseIntText (queryText v)

/-- The expression `x || d` for a number `x` and a numeric literal `d`. -/
def numOr (x d : JNum) : JNum := if x.truthy then x else d

/-- The handler of `GET /` on the parsed query string `req.query`. -/
def listUsers (find : Find) (countDocuments : CountDocuments)
    (query : List (String × QVal)) : Run :=
  let page := numOr (parseInt (query.lookup "page")) 1
  let limit := numOr (parseInt (query.lookup "limit")) 10
  let skip := JNum.mul (JNum.sub page 1) limit
  match find skip limit with
  | .error error => ⟨[.find skip limit], .next error⟩
  | .ok users =>
    match countDocuments with
    | .error error => ⟨[.find skip limit, .countDocuments], .next error⟩
    | .ok total =>
      ⟨[.find skip limit, .countDocuments],
        .respond (num 200)
          (obj [("success", bool true), ("statusCode", num 200), ("data", arr users),
                ("pagination", obj [("currentPage", num page), ("limit", num limit),
                                    ("total", num (.fin total)),
                                    ("pages", num (JNum.ceil (JNum.div (.fin total) limit)))])])⟩

/-! ## Error classifier (`middleware/errorHandler.js`) -/

/-- The `TypeError` of `Object.keys` and `Object.values` on a nullish value. -/
def notAnObject : JVal := typeError "Cannot convert undefined or null to object"

/-- The call `Object.keys(v)`. -/
def objectKeys (v : JVal) : Except JVal (List String) :=
  match v with
  | undefined => .error notAnObject
  | null => .error notAnObject
  | w => .ok (ownKeys w)

/-- The call `Object.values(v)`. -/
def objectValues (v : JVal) : Except JVal (List JVal) :=
  match v with
  | undefined => .error notAnObject
  | null => .error notAnObject
  | w => .ok ((ownKeys w).map (lookupProp (ownProps w)))

/-- The text of a template slot holding `Object.keys(v)[0]`: the first key, or
`undefined` when there is none. -/
def firstKeyText (keys : List String) : String :=
  match keys with
  | [] => "undefined"
  | k :: _ => k

/-- The middleware `errorHandler(err, req, res, next)`; an exception raised
while it runs is the `error` side. -/
def errorHandler (err : JVal) : Except JVal Outcome := do
  let name ← getProp err "name"
  if name.strictEqStr "ValidationError" then
    let errors ← getProp err "errors"
    let values ← objectValues errors
    let messages ← mapExcept (fun e => getProp e "message") values
    pure (.respond (num 400)
      (obj [("success", bool false), ("statusCode", num 400),
            ("message", str "Validation error"), ("errors", arr messages)]))
  else
    let code ← getProp err "code"
    if code.strictEqNum 11000 then
      let keyPattern ← getProp err "keyPattern"
      let keys ← objectKeys keyPattern
      pure (.respond (num 409)
        (obj [("success", bool false), ("statusCode", num 409),
              ("message", str (firstKeyText keys ++ " already exists"))]))
    else
      let name2 ← getProp err "name"
      if name2.strictEqStr "CastError" then
        pure (.respond (num 400)
          (obj [("success", bool false), ("statusCode", num 400),
                ("message", str "Invalid ID format")]))
      else
        let status ← getProp err "statusCode"
        let statusCode ← getProp err "statusCode"
        let message ← getProp err "message"
        pure (.respond (status.orElse (num 500))
          (obj [("success", bool false), ("statusCode", statusCode.orElse (num 500)),
                ("message", message.orElse (str "Internal server error"))]))

/-! ## Reference behaviour of the document store

The handlers above do not depend on this section.  It records the documented
behaviour of the store on the calls the handlers make, to read off what a
request does to a collection. -/

mutual
/-- Structural equality of two values. -/
def JVal.same : JVal → JVal → Bool
  | .undefined, .undefined => true
  | .null, .null => true
  | .bool a, .bool b => a == b
  | .num a, .num b => a == b
  | .str a, .str b => a == b
  | .surrogate a, .surrogate b => a == b
  | .date a, .date b => a == b
  | .builtin a, .builtin b => a == b
  | .arr xs, .arr ys => JVal.sameItems xs ys
  | .obj ps, .obj qs => JVal.sameProps ps qs
  | _, _ => false
/-- Structural equality of two lists of values. -/
def JVal.sameItems : List JVal → List JVal → Bool
  | [], [] => true
  | x :: xs, y :: ys => JVal.same x y && JVal.sameItems xs ys
  | _, _ => false
/-- Structural equality of two property lists. -/
def JVal.sameProps : List (String × JVal) → List (String × JVal) → Bool
  | [], [] => true
  | (k, x) :: ps, (l, y) :: qs => k == l && JVal.same x y && JVal.sameProps ps qs
  | _, _ => false
end

/-- Mode in which the store runs a batch: the boolean `ordered` option when the
caller passes one, and ordered otherwise, which is the default of `insertMany`
and of `bulkWrite`. -/
def orderedMode (options : JVal) : Bool :=
  match field options "ordered" with
  | .bool b => b
  | _ => true

/-- Indices of the operations that the store attempts in a batch of `n`
operations starting at index `i`, where `fails j` tells whether operation `j`
fails: an ordered batch stops at its first failure, an unordered batch attempts
every operation. -/
def attempted (ordered : Bool) (fails : Nat → Bool) : Nat → Nat → List Nat
  | _, 0 => []
  | i, n + 1 =>
    if ordered && fails i then [i] else i :: attempted ordered fails (i + 1) n

/-- The failure with which this reference answers a request outside it. -/
def refused : JVal :=
  obj [("name", str "MongoServerError"), ("message", str "invalid skip or limit")]

/-- Answer of a collection holding `docs` to `find().skip(skip).limit(limit)`
for a skip that is a non-negative integer and a limit that is a non-zero
integer, a negative limit counting as its absolute value.  Any other request
is outside this reference and is answered with a failure. -/
def memFind (docs : List JVal) : Find := fun skip limit =>
  match skip, limit with
  | .fin s, .fin l =>
    if 0 ≤ s ∧ s.den = 1 ∧ l.den = 1 ∧ l ≠ 0 then
      .ok ((docs.drop s.num.toNat).take l.num.natAbs)
    else .error refused
  | _, _ => .error refused

/-- Whether a document passes an equality filter: every field of the filter is
equal in the document. -/
def matchesFilter (flt doc : JVal) : Bool :=
  (ownProps flt).all (fun p => JVal.same (field doc p.1) p.2)

/-- Effect of the update operator `$set` on one document. -/
def applySet (fields doc : JVal) : JVal :=
  obj ((ownProps fields).foldl (fun t p => setProp t p.1 p.2) (ownProps doc))

/-- Effect of `$set` on the first document that passes the filter. -/
def setFirst (flt fields : JVal) : List JVal → List JVal
  | [] => []
  | d :: ds => if matchesFilter flt d then applySet fields d :: ds else d :: setFirst flt fields ds

/-- Effect of one `updateOne` or `updateMany` operation with a `$set` update
on the documents of the raw collection.  `User.collection` is the driver
collection underneath the model: the schema validators of `models/User.js` are
not consulted.  Other operations are left out of this reference. -/
def rawWrite (docs : List JVal) (op : JVal) : List JVal :=
  match op with
  | obj [("updateOne", obj [("filter", flt), ("update", obj [("$set", fields)])])] =>
    setFirst flt fields docs
  | obj [("updateMany", obj [("filter", flt), ("update", obj [("$set", fields)])])] =>
    docs.map (fun d => if matchesFilter flt d then applySet fields d else d)
  | _ => docs

/-- The schema rule `walletBalance: { type: Number, min: [0, ...] }` of
`models/User.js`, read as a condition on a stored document: `walletBalance` is
absent or null, or it is a number that is not below 0.  (A validator of the
model casts its input first; a stored value is what it is.) -/
def walletBalanceOk (doc : JVal) : Bool :=
  match field doc "walletBalance" with
  | .undefined => true
  | .null => true
  | .num (.fin q) => 0 ≤ q
  | .num (.inf negative) => !negative
  | _ => false

/-! ## Vocabulary of the statements -/

/-- The translated form of an `updateOne` or `updateMany` payload. -/
def wrapUpdate (kind : String) (now : Int) (payload : JVal) : JVal :=
  obj [(kind, obj [("filter", field payload "filter"),
                   ("update", setDoc now (field payload "update"))])]

/-- Two property lists with the same keys in the same order, and the same value
under every key other than `updatedAt`. -/
def sameExceptUpdatedAt : List (String × JVal) → List (String × JVal) → Prop
  | [], [] => True
  | (k, v) :: ps, (l, w) :: qs =>
    k = l ∧ (k ≠ "updatedAt" → v = w) ∧ sameExceptUpdatedAt ps qs
  | _, _ => False

/-- Two operations that are identical, or are the same `updateOne` or
`updateMany` with the same filter and with updates that differ at most in the
value given for `updatedAt`. -/
def opsAlike (a b : JVal) : Prop :=
  a = b ∨ ∃ kind flt u1 u2, (kind = "updateOne" ∨ kind = "updateMany") ∧
    a = obj [(kind, obj [("filter", flt), ("update", obj u1)])] ∧
    b = obj [(kind, obj [("filter", flt), ("update", obj u2)])] ∧
    sameExceptUpdatedAt u1 u2

/-- Twelve stored records, numbered in store order. -/
def twelveUsers : List JVal :=
  (List.range 12).map (fun i => obj [("_id", num (.fin i))])

/-- Stated after the specification: the page or limit of a list request, the
integer parsed from the query parameter `name`, or the default `dflt` when the
parameter is absent, unparseable or 0. -/
def paramInt (query : List (String × QVal)) (name : String) (dflt : Int) : Int :=
  match parseIntMath (queryText (query.lookup name)) with
  | some n => if n = 0 then dflt else n
  | none => dflt

/-- A batch of three records whose second record repeats the email of the
first. -/
def duplicateBatch : List JVal :=
  [obj [("fullName", str "Ann Lee"), ("email", str "ann@x.com"), ("password", str "pw1"),
        ("phone", str "9876543210")],
   obj [("fullName", str "Ann Ray"), ("email", str "ann@x.com"), ("password", str "pw2"),
        ("phone", str "9876543211")],
   obj [("fullName", str "Bob Day"), ("email", str "bob@x.com"), ("password", str "pw3"),
        ("phone", str "9876543212")]]

/-- The failure thrown by `User.insertMany` on `duplicateBatch` once the store
has inserted the first and the third record: a bulk write failure of the given
name with one write error at index 1, the driver result under `result` and the
inserted documents under `insertedDocs`. -/
def duplicateFailure (name : String) : JVal :=
  obj [("name", str name), ("code", num 11000),
       ("message", str "E11000 duplicate key error collection: users index: email_1"),
       ("writeErrors", arr [obj [("index", num 1), ("code", num 11000),
          ("errmsg", str "E11000 duplicate key error collection: users index: email_1")]]),
       ("result", obj [("insertedCount", num 2)]),
       ("insertedDocs", arr
         [obj [("fullName", str "Ann Lee"), ("email", str "ann@x.com"), ("password", str "pw1"),
               ("phone", str "9876543210")],
          obj [("fullName", str "Bob Day"), ("email", str "bob@x.com"), ("password", str "pw3"),
               ("phone", str "9876543212")]])]

/-! ## Property lists -/

theorem lookupProp_nil (j : String) : lookupProp [] j = undefined := rfl

theorem lookupProp_cons_self (k : String) (v : JVal) (ps : List (String × JVal)) :
    lookupProp ((k, v) :: ps) k = v := by
  simp [lookupProp, List.lookup]

theorem lookupProp_cons_ne (k : String) (v : JVal) (ps : List (String × JVal)) (j : String)
    (h : j ≠ k) : lookupProp ((k, v) :: ps) j = lookupProp ps j := by
  have hb : (j == k) = false := by simpa using h
  simp [lookupProp, List.lookup, hb]

theorem lookupProp_setProp (ps : List (String × JVal)) (k : String) (v : JVal) (j : String) :
    lookupProp (setProp ps k v) j = if j = k then v else lookupProp ps j := by
  induction ps with
  | nil =>
    by_cases h : j = k
    · subst h; simp [setProp, lookupProp_cons_self]
    · simp [setProp, lookupProp_cons_ne _ _ _ _ h, h]
  | cons p rest ih =>
    obtain ⟨k0, v0⟩ := p
    by_cases h0 : k0 = k
    · subst h0
      by_cases h : j = k0
      · subst h; simp [setProp, lookupProp_cons_self]
      · simp [setProp, lookupProp_cons_ne _ _ _ _ h, h]
    · by_cases hj : j = k0
      · subst hj
        have hjk : ¬ j = k := h0
        simp [setProp, h0, lookupProp_cons_self, hjk]
      · simp only [setProp, h0, if_false, lookupProp_cons_ne _ _ _ _ hj, ih]

theorem keys_setProp (ps : List (String × JVal)) (k : String) (v : JVal) (j : String) :
    j ∈ (setProp ps k v).map Prod.fst ↔ j = k ∨ j ∈ ps.map Prod.fst := by
  induction ps with
  | nil => simp [setProp]
  | cons p rest ih =>
    obtain ⟨k0, v0⟩ := p
    by_cases h0 : k0 = k
    · simp [setProp, h0]
    · simp only [setProp, h0, if_false, List.map_cons, List.mem_cons, ih]
      tauto

theorem lookupProp_fold (src : List (String × JVal)) (ks : List String)
    (t : List (String × JVal)) (j : String) :
    lookupProp (ks.foldl (fun t k => setProp t k (lookupProp src k)) t) j =
      if j ∈ ks then lookupProp src j else lookupProp t j := by
  induction ks generalizing t with
  | nil => simp
  | cons k ks ih =>
    simp only [List.foldl_cons, ih, lookupProp_setProp, List.mem_cons]
    by_cases h1 : j ∈ ks
    · simp [h1]
    · by_cases h2 : j = k
      · simp [h1, h2]
      · simp [h1, h2]

theorem keys_fold (src : List (String × JVal)) (ks : List String)
    (t : List (String × JVal)) (j : String) :
    j ∈ (ks.foldl (fun t k => setProp t k (lookupProp src k)) t).map Prod.fst ↔
      j ∈ ks ∨ j ∈ t.map Prod.fst := by
  induction ks generalizing t with
  | nil => simp
  | cons k ks ih =>
    simp only [List.foldl_cons, ih, keys_setProp, List.mem_cons]
    tauto

theorem lookupProp_absent (ps : List (String × JVal)) (j : String)
    (h : j ∉ ps.map Prod.fst) : lookupProp ps j = undefined := by
  induction ps with
  | nil => rfl
  | cons p rest ih =>
    obtain ⟨k0, v0⟩ := p
    simp only [List.map_cons, List.mem_cons, not_or] at h
    rw [lookupProp_cons_ne _ _ _ _ h.1]
    exact ih h.2

theorem setDoc_spec (now : Int) (upd : JVal) :
    ∃ S, setDoc now upd = obj [("$set", obj S)] ∧
      (∀ k, k ∈ S.map Prod.fst ↔ k ∈ ownKeys upd ∨ k = "updatedAt") ∧
      (∀ k, k ≠ "updatedAt" → lookupProp S k = lookupProp (ownProps upd) k) ∧
      lookupProp S "updatedAt" = date now := by
  refine ⟨setProp (copyDataProperties [] upd) "updatedAt" (date now), rfl, ?_, ?_, ?_⟩
  · intro k
    rw [keys_setProp, copyDataProperties, keys_fold]
    simp only [List.map_nil, List.not_mem_nil, or_false]
    tauto
  · intro k hk
    rw [lookupProp_setProp, if_neg hk, copyDataProperties, lookupProp_fold]
    by_cases h : k ∈ ownKeys upd
    · rw [if_pos h]
    · rw [if_neg h, lookupProp_nil, lookupProp_absent _ _ h]
  · rw [lookupProp_setProp, if_pos rfl]

/-! ## The translator -/

theorem getProp_ok (v : JVal) (k : String) (h1 : v ≠ null) (h2 : v ≠ undefined) :
    getProp v k = .ok (field v k) := by
  cases v <;> first | rfl | exact absurd rfl h1 | exact absurd rfl h2

theorem truthy_ne_nullish (v : JVal) (h : v.truthy = true) : v ≠ null ∧ v ≠ undefined := by
  cases v <;> simp [truthy] at h ⊢

theorem getProp_ok_of_truthy (v : JVal) (k : String) (h : v.truthy = true) :
    getProp v k = .ok (field v k) :=
  getProp_ok v k (truthy_ne_nullish v h).1 (truthy_ne_nullish v h).2

theorem translateOp_eq (now : Int) (op : JVal) (h1 : op ≠ null) (h2 : op ≠ undefined) :
    translateOp now op = .ok (
      if (field op "updateOne").truthy then wrapUpdate "updateOne" now (field op "updateOne")
      else if (field op "updateMany").truthy then wrapUpdate "updateMany" now (field op "updateMany")
      else op) := by
  unfold translateOp
  simp only [getProp_ok op _ h1 h2, bind, Except.bind, pure, Except.pure]
  by_cases hone : (field op "updateOne").truthy = true
  · simp only [hone, if_true, getProp_ok_of_truthy _ _ hone, wrapUpdate]
  · simp only [hone, if_false]
    by_cases hmany : (field op "updateMany").truthy = true
    · simp only [hmany, if_true, getProp_ok_of_truthy _ _ hmany, wrapUpdate]
      simp
    · simp only [hmany, if_false]
      simp

theorem translateFrom_total (now : Nat → Int) (ops : List JVal) (i0 : Nat)
    (hnn : ∀ op ∈ ops, op ≠ null ∧ op ≠ undefined) :
    ∃ out, translateFrom now i0 ops = .ok out := by
  induction ops generalizing i0 with
  | nil => exact ⟨[], rfl⟩
  | cons op rest ih =>
    obtain ⟨out, hout⟩ := ih (i0 + 1) (fun o ho => hnn o (List.mem_cons_of_mem _ ho))
    have hop := hnn op (List.mem_cons_self _ _)
    simp only [translateFrom, translateOp_eq _ _ hop.1 hop.2, hout, bind, Except.bind, pure,
      Except.pure]
    exact ⟨_, rfl⟩

theorem translateFrom_get (now : Nat → Int) (ops out : List JVal) (i0 : Nat)
    (h : translateFrom now i0 ops = .ok out) :
    out.length = ops.length ∧
      ∀ i op, ops[i]? = some op →
        ∃ o, translateOp (now (i0 + i)) op = .ok o ∧ out[i]? = some o := by
  induction ops generalizing i0 out with
  | nil =>
    simp only [translateFrom, Except.ok.injEq] at h
    subst h
    simp
  | cons op rest ih =>
    simp only [translateFrom, bind, Except.bind, pure, Except.pure] at h
    cases hop : translateOp (now i0) op with
    | error e => simp [hop] at h
    | ok o =>
      cases hrest : translateFrom now (i0 + 1) rest with
      | error e => simp [hop, hrest] at h
      | ok os =>
        simp only [hop, hrest, Except.ok.injEq] at h
        subst h
        obtain ⟨hlen, hget⟩ := ih os (i0 + 1) hrest
        refine ⟨by simp [hlen], ?_⟩
        intro i x hx
        cases i with
        | zero =>
          simp only [List.getElem?_cons_zero, Option.some.injEq] at hx
          subst hx
          exact ⟨o, by simpa using hop, by simp⟩
        | succ j =>
          simp only [List.getElem?_cons_succ] at hx
          obtain ⟨o2, ho2, hget2⟩ := hget j x hx
          refine ⟨o2, ?_, by simpa using hget2⟩
          have : i0 + (j + 1) = i0 + 1 + j := by omega
          rw [this]; exact ho2

/-! ## Updates that differ in the client value of updatedAt -/

theorem sameExceptUpdatedAt_keys (u1 u2 : List (String × JVal))
    (h : sameExceptUpdatedAt u1 u2) : u1.map Prod.fst = u2.map Prod.fst := by
  induction u1 generalizing u2 with
  | nil =>
    cases u2 with
    | nil => rfl
    | cons q qs => exact absurd h (by simp [sameExceptUpdatedAt])
  | cons p ps ih =>
    cases u2 with
    | nil => exact absurd h (by simp [sameExceptUpdatedAt])
    | cons q qs =>
      obtain ⟨k, v⟩ := p
      obtain ⟨l, w⟩ := q
      simp only [sameExceptUpdatedAt] at h
      simp [h.1, ih qs h.2.2]

theorem sameExceptUpdatedAt_lookup (u1 u2 : List (String × JVal))
    (h : sameExceptUpdatedAt u1 u2) (k : String) (hk : k ≠ "updatedAt") :
    lookupProp u1 k = lookupProp u2 k := by
  induction u1 generalizing u2 with
  | nil =>
    cases u2 with
    | nil => rfl
    | cons q qs => exact absurd h (by simp [sameExceptUpdatedAt])
  | cons p ps ih =>
    cases u2 with
    | nil => exact absurd h (by simp [sameExceptUpdatedAt])
    | cons q qs =>
      obtain ⟨k1, v⟩ := p
      obtain ⟨l, w⟩ := q
      simp only [sameExceptUpdatedAt] at h
      obtain ⟨h1, h2, h3⟩ := h
      subst h1
      by_cases hkk : k = k1
      · subst hkk
        rw [lookupProp_cons_self, lookupProp_cons_self]
        exact h2 hk
      · rw [lookupProp_cons_ne _ _ _ _ hkk, lookupProp_cons_ne _ _ _ _ hkk]
        exact ih qs h3

theorem sameExceptUpdatedAt_setProp (t1 t2 : List (String × JVal)) (k : String) (v w : JVal)
    (h : sameExceptUpdatedAt t1 t2) (hv : k ≠ "updatedAt" → v = w) :
    sameExceptUpdatedAt (setProp t1 k v) (setProp t2 k w) := by
  induction t1 generalizing t2 with
  | nil =>
    cases t2 with
    | nil => exact ⟨rfl, hv, trivial⟩
    | cons q qs => exact absurd h (by simp [sameExceptUpdatedAt])
  | cons p ps ih =>
    cases t2 with
    | nil => exact absurd h (by simp [sameExceptUpdatedAt])
    | cons q qs =>
      obtain ⟨k1, v1⟩ := p
      obtain ⟨l, w1⟩ := q
      simp only [sameExceptUpdatedAt] at h
      obtain ⟨h1, h2, h3⟩ := h
      subst h1
      by_cases hk : k1 = k
      · simp only [setProp, hk, if_true, sameExceptUpdatedAt]
        exact ⟨trivial, hv, h3⟩
      · simp only [setProp, hk, if_false, sameExceptUpdatedAt]
        exact ⟨trivial, h2, ih qs h3⟩

theorem keys_setProp_eq (t : List (String × JVal)) (k : String) (v : JVal) :
    (setProp t k v).map Prod.fst =
      if k ∈ t.map Prod.fst then t.map Prod.fst else t.map Prod.fst ++ [k] := by
  induction t with
  | nil => simp [setProp]
  | cons p ps ih =>
    obtain ⟨k1, v1⟩ := p
    by_cases hk : k1 = k
    · simp [setProp, hk]
    · have hk2 : ¬ k = k1 := fun h => hk h.symm
      by_cases hmem : k ∈ ps.map Prod.fst
      · simp only [setProp, hk, if_false, List.map_cons, ih, hmem, if_true, List.mem_cons, or_true]
      · simp only [setProp, hk, if_false, List.map_cons, ih, hmem, List.mem_cons, hk2, or_self,
          List.cons_append]

theorem nodup_setProp (t : List (String × JVal)) (k : String) (v : JVal)
    (h : (t.map Prod.fst).Nodup) : ((setProp t k v).map Prod.fst).Nodup := by
  rw [keys_setProp_eq]
  by_cases hmem : k ∈ t.map Prod.fst
  · simpa [hmem] using h
  · simp only [hmem, if_false]
    rw [List.nodup_append]
    refine ⟨h, List.nodup_singleton k, ?_⟩
    intro a ha hb
    simp only [List.mem_singleton] at hb
    subst hb
    exact hmem ha

theorem nodup_fold (src : List (String × JVal)) (ks : List String) (t : List (String × JVal))
    (h : (t.map Prod.fst).Nodup) :
    ((ks.foldl (fun t k => setProp t k (lookupProp src k)) t).map Prod.fst).Nodup := by
  induction ks generalizing t with
  | nil => simpa using h
  | cons k ks ih => exact ih _ (nodup_setProp t k _ h)

theorem sameExceptUpdatedAt_fold (u1 u2 : List (String × JVal)) (ks : List String)
    (hu : ∀ k, k ≠ "updatedAt" → lookupProp u1 k = lookupProp u2 k)
    (t1 t2 : List (String × JVal)) (h : sameExceptUpdatedAt t1 t2) :
    sameExceptUpdatedAt (ks.foldl (fun t k => setProp t k (lookupProp u1 k)) t1)
      (ks.foldl (fun t k => setProp t k (lookupProp u2 k)) t2) := by
  induction ks generalizing t1 t2 with
  | nil => simpa using h
  | cons k ks ih =>
    exact ih _ _ (sameExceptUpdatedAt_setProp t1 t2 k _ _ h (hu k))

theorem sameExceptUpdatedAt_eq_of_absent (t1 t2 : List (String × JVal))
    (h : sameExceptUpdatedAt t1 t2) (habs : "updatedAt" ∉ t1.map Prod.fst) : t1 = t2 := by
  induction t1 generalizing t2 with
  | nil =>
    cases t2 with
    | nil => rfl
    | cons q qs => exact absurd h (by simp [sameExceptUpdatedAt])
  | cons p ps ih =>
    cases t2 with
    | nil => exact absurd h (by simp [sameExceptUpdatedAt])
    | cons q qs =>
      obtain ⟨k1, v1⟩ := p
      obtain ⟨l, w1⟩ := q
      simp only [sameExceptUpdatedAt] at h
      obtain ⟨h1, h2, h3⟩ := h
      subst h1
      simp only [List.map_cons, List.mem_cons, not_or] at habs
      have hne : k1 ≠ "updatedAt" := fun e => habs.1 e.symm
      rw [h2 hne, ih qs h3 habs.2]

theorem setProp_updatedAt_eq (t1 t2 : List (String × JVal)) (d : JVal)
    (h : sameExceptUpdatedAt t1 t2) (hnd : (t1.map Prod.fst).Nodup) :
    setProp t1 "updatedAt" d = setProp t2 "updatedAt" d := by
  induction t1 generalizing t2 with
  | nil =>
    cases t2 with
    | nil => rfl
    | cons q qs => exact absurd h (by simp [sameExceptUpdatedAt])
  | cons p ps ih =>
    cases t2 with
    | nil => exact absurd h (by simp [sameExceptUpdatedAt])
    | cons q qs =>
      obtain ⟨k1, v1⟩ := p
      obtain ⟨l, w1⟩ := q
      simp only [sameExceptUpdatedAt] at h
      obtain ⟨h1, h2, h3⟩ := h
      subst h1
      simp only [List.map_cons, List.nodup_cons] at hnd
      by_cases hk : k1 = "updatedAt"
      · subst hk
        simp only [setProp, if_true]
        rw [sameExceptUpdatedAt_eq_of_absent ps qs h3 hnd.1]
      · simp only [setProp, hk, if_false]
        rw [h2 hk, ih qs h3 hnd.2]

theorem setDoc_congr (now : Int) (u1 u2 : List (String × JVal))
    (h : sameExceptUpdatedAt u1 u2) : setDoc now (obj u1) = setDoc now (obj u2) := by
  unfold setDoc copyDataProperties ownKeys
  simp only [ownProps]
  rw [← sameExceptUpdatedAt_keys u1 u2 h]
  have hrel := sameExceptUpdatedAt_fold u1 u2 (u1.map Prod.fst)
    (sameExceptUpdatedAt_lookup u1 u2 h) [] [] (by simp [sameExceptUpdatedAt])
  have hnd := nodup_fold u1 (u1.map Prod.fst) [] (by simp)
  rw [setProp_updatedAt_eq _ _ (date now) hrel hnd]

theorem opsAlike_translateOp (now : Int) (a b : JVal) (h : opsAlike a b) :
    translateOp now a = translateOp now b := by
  rcases h with h | ⟨kind, flt, u1, u2, hkind, ha, hb, hu⟩
  · rw [h]
  · subst ha hb
    have hset := setDoc_congr now u1 u2 hu
    rcases hkind with hk | hk
    · subst hk
      show Except.ok (obj [("updateOne", obj [("filter", flt), ("update", setDoc now (obj u1))])]) =
        Except.ok (obj [("updateOne", obj [("filter", flt), ("update", setDoc now (obj u2))])])
      rw [hset]
    · subst hk
      show Except.ok (obj [("updateMany", obj [("filter", flt), ("update", setDoc now (obj u1))])]) =
        Except.ok (obj [("updateMany", obj [("filter", flt), ("update", setDoc now (obj u2))])])
      rw [hset]

theorem opsAlike_translateFrom (now : Nat → Int) (ops1 ops2 : List JVal)
    (h : List.Forall₂ opsAlike ops1 ops2) (i0 : Nat) :
    translateFrom now i0 ops1 = translateFrom now i0 ops2 := by
  induction h generalizing i0 with
  | nil => rfl
  | cons hab _ ih =>
    simp only [translateFrom, opsAlike_translateOp _ _ _ hab, ih]

/-- Translation of the two update forms, with the facts on the `$set` document. -/
theorem translateOp_stamps (now : Int) (flt upd : JVal) :
    ∃ S,
      translateOp now (obj [("updateOne", obj [("filter", flt), ("update", upd)])]) =
        .ok (obj [("updateOne", obj [("filter", flt), ("update", obj [("$set", obj S)])])]) ∧
      translateOp now (obj [("updateMany", obj [("filter", flt), ("update", upd)])]) =
        .ok (obj [("updateMany", obj [("filter", flt), ("update", obj [("$set", obj S)])])]) ∧
      (∀ k, k ∈ S.map Prod.fst ↔ k ∈ ownKeys upd ∨ k = "updatedAt") ∧
      (∀ k, k ≠ "updatedAt" → lookupProp S k = lookupProp (ownProps upd) k) ∧
      lookupProp S "updatedAt" = date now := by
  obtain ⟨S, hS, h1, h2, h3⟩ := setDoc_spec now upd
  refine ⟨S, ?_, ?_, h1, h2, h3⟩
  · rw [← hS]; rfl
  · rw [← hS]; rfl

/-! ## Property reads and the handlers -/

theorem bulkUpdate_calls (bulkWrite : BulkWrite) (now : Nat → Int) (ops out : List JVal)
    (hout : translateOps now ops = .ok out) (hne : ops ≠ []) :
    (bulkUpdate bulkWrite now (arr ops)).calls = [.bulkWrite out undefined] := by
  have hlen0 : ¬ ops.length = 0 := by
    intro h; exact hne (List.length_eq_zero.mp h)
  simp only [bulkUpdate, hlen0, if_false, hout]
  cases h1 : bulkWrite out undefined with
  | error e => rfl
  | ok r =>
    simp only
    cases h2 : updateSuccess r <;> rfl

theorem map_lookupProp_keys (es : List (String × JVal)) (h : (es.map Prod.fst).Nodup) :
    (es.map Prod.fst).map (lookupProp es) = es.map Prod.snd := by
  induction es with
  | nil => rfl
  | cons p rest ih =>
    obtain ⟨k, v⟩ := p
    simp only [List.map_cons, List.nodup_cons] at h
    simp only [List.map_cons, lookupProp_cons_self, List.cons.injEq, true_and]
    rw [← ih h.2]
    apply List.map_congr_left
    intro j hj
    have hne : j ≠ k := fun e => h.1 (e ▸ hj)
    exact lookupProp_cons_ne k v rest j hne

theorem mapExcept_message (vals : List JVal) (h : ∀ v ∈ vals, v ≠ null ∧ v ≠ undefined) :
    mapExcept (fun e => getProp e "message") vals =
      .ok (vals.map (fun e => field e "message")) := by
  induction vals with
  | nil => rfl
  | cons v rest ih =>
    have hv := h v (List.mem_cons_self _ _)
    simp only [mapExcept, getProp_ok v _ hv.1 hv.2,
      ih (fun w hw => h w (List.mem_cons_of_mem _ hw)), bind, Except.bind, pure, Except.pure,
      List.map_cons]

/-! ## The spread of an object with distinct keys -/

theorem setProp_of_not_mem (t : List (String × JVal)) (k : String) (v : JVal)
    (h : k ∉ t.map Prod.fst) : setProp t k v = t ++ [(k, v)] := by
  induction t with
  | nil => rfl
  | cons p rest ih =>
    obtain ⟨k0, v0⟩ := p
    simp only [List.map_cons, List.mem_cons, not_or] at h
    have h0 : ¬ k0 = k := fun e => h.1 e.symm
    simp only [setProp, h0, if_false, List.cons_append, ih h.2]

theorem setProp_of_mem (t : List (String × JVal)) (k : String) (v : JVal)
    (hmem : k ∈ t.map Prod.fst) (hnd : (t.map Prod.fst).Nodup) :
    setProp t k v = t.map (fun p => if p.1 = k then (k, v) else p) := by
  induction t with
  | nil => simp at hmem
  | cons p rest ih =>
    obtain ⟨k0, v0⟩ := p
    simp only [List.map_cons, List.nodup_cons] at hnd
    by_cases h0 : k0 = k
    · subst h0
      have hrest : rest.map (fun p => if p.1 = k0 then (k0, v) else p) = rest := by
        conv_rhs => rw [← List.map_id rest]
        apply List.map_congr_left
        intro p hp
        have : p.1 ≠ k0 := fun e => hnd.1 (e ▸ List.mem_map_of_mem Prod.fst hp)
        simp [this]
      simp only [setProp, if_true, List.map_cons, hrest]
    · have hk : k ∈ rest.map Prod.fst := by
        simp only [List.map_cons, List.mem_cons] at hmem
        rcases hmem with e | e
        · exact absurd e.symm h0
        · exact e
      simp only [setProp, h0, if_false, List.map_cons, ih hk hnd.2]

theorem lookupProp_append_of_not_mem (pre suf : List (String × JVal)) (k : String)
    (h : k ∉ pre.map Prod.fst) : lookupProp (pre ++ suf) k = lookupProp suf k := by
  induction pre with
  | nil => rfl
  | cons p rest ih =>
    obtain ⟨k0, v0⟩ := p
    simp only [List.map_cons, List.mem_cons, not_or] at h
    rw [List.cons_append, lookupProp_cons_ne _ _ _ _ h.1]
    exact ih h.2

theorem fold_setProp_rebuilds (pre suf : List (String × JVal))
    (hnd : ((pre ++ suf).map Prod.fst).Nodup) :
    (suf.map Prod.fst).foldl (fun t k => setProp t k (lookupProp (pre ++ suf) k)) pre =
      pre ++ suf := by
  induction suf generalizing pre with
  | nil => simp
  | cons p rest ih =>
    obtain ⟨k, v⟩ := p
    have hk : k ∉ pre.map Prod.fst := by
      intro hmem
      rw [List.map_append, List.nodup_append] at hnd
      exact hnd.2.2 hmem (by simp)
    have hlook : lookupProp (pre ++ (k, v) :: rest) k = v := by
      rw [lookupProp_append_of_not_mem _ _ _ hk, lookupProp_cons_self]
    have hsplit : pre ++ (k, v) :: rest = (pre ++ [(k, v)]) ++ rest := by simp
    simp only [List.map_cons, List.foldl_cons, hlook, setProp_of_not_mem _ _ _ hk]
    rw [hsplit]
    exact ih (pre ++ [(k, v)]) (by rw [← hsplit]; exact hnd)

theorem copyDataProperties_obj (u : List (String × JVal)) (hnd : (u.map Prod.fst).Nodup) :
    copyDataProperties [] (obj u) = u := by
  have h := fold_setProp_rebuilds [] u (by simpa using hnd)
  simpa [copyDataProperties, ownKeys, ownProps] using h

/-- The `$set` document built from an update object: its keys, its values, and
its exact form when the keys of the update are distinct. -/
theorem setDoc_obj (now : Int) (u : List (String × JVal)) :
    ∃ S, setDoc now (obj u) = obj [("$set", obj S)] ∧
      (∀ k, k ∈ S.map Prod.fst ↔ k ∈ u.map Prod.fst ∨ k = "updatedAt") ∧
      (∀ k, k ≠ "updatedAt" → lookupProp S k = lookupProp u k) ∧
      lookupProp S "updatedAt" = date now ∧
      ((u.map Prod.fst).Nodup →
        S = if "updatedAt" ∈ u.map Prod.fst
          then u.map (fun p => if p.1 = "updatedAt" then ("updatedAt", date now) else p)
          else u ++ [("updatedAt", date now)]) := by
  obtain ⟨S, hS, h1, h2, h3⟩ := setDoc_spec now (obj u)
  refine ⟨S, hS, h1, h2, h3, ?_⟩
  intro hnd
  have hS2 : S = setProp (copyDataProperties [] (obj u)) "updatedAt" (date now) := by
    have := hS
    unfold setDoc at this
    simp only [JVal.obj.injEq, List.cons.injEq, Prod.mk.injEq, true_and, and_true] at this
    exact this.symm
  rw [hS2, copyDataProperties_obj u hnd]
  by_cases hmem : "updatedAt" ∈ u.map Prod.fst
  · rw [if_pos hmem, setProp_of_mem u _ _ hmem hnd]
  · rw [if_neg hmem, setProp_of_not_mem u _ _ hmem]
/-! ## Rounding to a double -/

theorem roundHalfEven_intCast (z : Int) : roundHalfEven (z : ℚ) = z := by
  unfold roundHalfEven
  simp

theorem roundHalfEven_near (x : ℚ) : |(roundHalfEven x : ℚ) - x| ≤ 1 / 2 := by
  have h1 : (Int.floor x : ℚ) ≤ x := Int.floor_le x
  have h2 : x < (Int.floor x : ℚ) + 1 := Int.lt_floor_add_one x
  unfold roundHalfEven
  split_ifs with ha hb hc
  · rw [abs_le]; constructor <;> linarith
  · rw [abs_le]; push_cast; constructor <;> linarith
  · rw [abs_le]; constructor <;> linarith
  · rw [abs_le]; push_cast; constructor <;> linarith

theorem toDouble_unfold (q : ℚ) (hq : q ≠ 0) (hlo : (2 : ℚ) ^ (-1022 : Int) ≤ |q|) :
    toDouble q =
      if (2 : ℚ) ^ (1024 : Nat) ≤
          (roundHalfEven (|q| / (2 : ℚ) ^ (Int.log 2 |q| - 52)) : ℚ) *
            (2 : ℚ) ^ (Int.log 2 |q| - 52)
      then .inf (decide (q < 0))
      else .fin (if q < 0
        then -((roundHalfEven (|q| / (2 : ℚ) ^ (Int.log 2 |q| - 52)) : ℚ) *
            (2 : ℚ) ^ (Int.log 2 |q| - 52))
        else (roundHalfEven (|q| / (2 : ℚ) ^ (Int.log 2 |q| - 52)) : ℚ) *
            (2 : ℚ) ^ (Int.log 2 |q| - 52)) := by
  have hpos : 0 < |q| := abs_pos.mpr hq
  have hlog : (-1022 : Int) ≤ Int.log 2 |q| := by
    have := (Int.zpow_le_iff_le_log (b := 2) (by norm_num) (x := -1022) hpos).mp
      (by exact_mod_cast hlo)
    exact this
  unfold toDouble
  simp only [hq, if_false, max_eq_left hlog]
theorem toDouble_intCast (n : Int) (h : |n| < 2 ^ 53) : toDouble (n : ℚ) = .fin n := by
  by_cases hn : n = 0
  · subst hn; simp [toDouble]
  have hq : (n : ℚ) ≠ 0 := by exact_mod_cast hn
  have habs : |(n : ℚ)| = ((|n| : Int) : ℚ) := by simp
  have hone : (1 : ℚ) ≤ |(n : ℚ)| := by
    rw [habs]
    have : (1 : Int) ≤ |n| := Int.one_le_abs hn
    exact_mod_cast this
  have hpos : (0 : ℚ) < |(n : ℚ)| := lt_of_lt_of_le one_pos hone
  have hlt : |(n : ℚ)| < (2 : ℚ) ^ (53 : Int) := by
    rw [habs]
    have h1 : ((|n| : Int) : ℚ) < ((2 ^ 53 : Int) : ℚ) := by exact_mod_cast h
    have h2 : ((2 ^ 53 : Int) : ℚ) = (2 : ℚ) ^ (53 : Int) := by norm_num
    rw [← h2]; exact h1
  have hl0 : (0 : Int) ≤ Int.log 2 |(n : ℚ)| :=
    (Int.zpow_le_iff_le_log (b := 2) (by norm_num) (x := 0) hpos).mp (by simpa using hone)
  have hl53 : Int.log 2 |(n : ℚ)| < 53 :=
    (Int.lt_zpow_iff_log_lt (b := 2) (by norm_num) (x := 53) hpos).mp (by exact_mod_cast hlt)
  have hlo : (2 : ℚ) ^ (-1022 : Int) ≤ |(n : ℚ)| := by
    refine le_trans ?_ hone
    rw [zpow_neg]
    exact inv_le_one_of_one_le₀ (one_le_zpow₀ (by norm_num) (by norm_num))
  obtain ⟨m, hm⟩ := Int.eq_ofNat_of_zero_le hl0
  have hm52 : m ≤ 52 := by omega
  have hu : (2 : ℚ) ^ (Int.log 2 |(n : ℚ)| - 52) = ((2 : ℚ) ^ (52 - m))⁻¹ := by
    rw [hm]
    have : ((m : Int) - 52) = -((52 - m : Nat) : Int) := by omega
    rw [this, zpow_neg, zpow_natCast]
  have hx : |(n : ℚ)| / (2 : ℚ) ^ (Int.log 2 |(n : ℚ)| - 52) = ((|n| * 2 ^ (52 - m) : Int) : ℚ) := by
    rw [hu, habs, div_inv_eq_mul]
    push_cast
    rfl
  have hr : (roundHalfEven (|(n : ℚ)| / (2 : ℚ) ^ (Int.log 2 |(n : ℚ)| - 52)) : ℚ) *
      (2 : ℚ) ^ (Int.log 2 |(n : ℚ)| - 52) = |(n : ℚ)| := by
    rw [hx, roundHalfEven_intCast, hu, habs]
    push_cast
    have h2 : ((2 : ℚ) ^ (52 - m)) ≠ 0 := pow_ne_zero _ (by norm_num)
    field_simp
  rw [toDouble_unfold _ hq hlo, hr]
  have hsmall : ¬ (2 : ℚ) ^ (1024 : Nat) ≤ |(n : ℚ)| := by
    have h53 : (2 : ℚ) ^ (53 : Int) ≤ (2 : ℚ) ^ (1024 : Nat) := by
      rw [← zpow_natCast]
      exact zpow_le_zpow_right₀ (by norm_num) (by norm_num)
    intro hc
    exact absurd (lt_of_le_of_lt (le_trans h53 hc) hlt) (lt_irrefl _)
  rw [if_neg hsmall]
  by_cases hneg : (n : ℚ) < 0
  · rw [if_pos hneg, abs_of_neg hneg, neg_neg]
  · rw [if_neg hneg, abs_of_nonneg (not_lt.mp hneg)]

theorem toDouble_near (q : ℚ) (hq : q ≠ 0) (hlo : (2 : ℚ) ^ (-1022 : Int) ≤ |q|)
    (hhi : |q| < (2 : ℚ) ^ (1023 : Nat)) :
    ∃ d : ℚ, toDouble q = .fin d ∧ |d - q| ≤ |q| / 2 ^ (53 : Nat) := by
  have hpos : 0 < |q| := abs_pos.mpr hq
  have hle : (2 : ℚ) ^ Int.log 2 |q| ≤ |q| := by
    have := Int.zpow_log_le_self (b := 2) (r := |q|) (by norm_num) hpos
    simpa using this
  have hupos : (0 : ℚ) < (2 : ℚ) ^ (Int.log 2 |q| - 52) := zpow_pos (by norm_num) _
  have hu : (2 : ℚ) ^ (Int.log 2 |q| - 52) = (2 : ℚ) ^ Int.log 2 |q| / 2 ^ (52 : Nat) := by
    rw [zpow_sub₀ (by norm_num : (2 : ℚ) ≠ 0)]
    norm_num
  have hule : (2 : ℚ) ^ (Int.log 2 |q| - 52) ≤ |q| / 2 ^ (52 : Nat) := by
    rw [hu]
    exact div_le_div_of_nonneg_right hle (by positivity)
  have hnear := roundHalfEven_near (|q| / (2 : ℚ) ^ (Int.log 2 |q| - 52))
  have hr : abs ((roundHalfEven (|q| / (2 : ℚ) ^ (Int.log 2 |q| - 52)) : ℚ) *
      (2 : ℚ) ^ (Int.log 2 |q| - 52) - |q|) ≤ |q| / 2 ^ (53 : Nat) := by
    have e1 : (roundHalfEven (|q| / (2 : ℚ) ^ (Int.log 2 |q| - 52)) : ℚ) *
        (2 : ℚ) ^ (Int.log 2 |q| - 52) - |q| =
        ((roundHalfEven (|q| / (2 : ℚ) ^ (Int.log 2 |q| - 52)) : ℚ) -
          |q| / (2 : ℚ) ^ (Int.log 2 |q| - 52)) * (2 : ℚ) ^ (Int.log 2 |q| - 52) := by
      field_simp
    rw [e1, abs_mul, abs_of_pos hupos]
    calc _ ≤ 1 / 2 * (2 : ℚ) ^ (Int.log 2 |q| - 52) :=
          mul_le_mul_of_nonneg_right hnear hupos.le
      _ ≤ 1 / 2 * (|q| / 2 ^ (52 : Nat)) := by
          exact mul_le_mul_of_nonneg_left hule (by norm_num)
      _ = |q| / 2 ^ (53 : Nat) := by ring
  rw [toDouble_unfold q hq hlo]
  have hsmall : ¬ (2 : ℚ) ^ (1024 : Nat) ≤
      (roundHalfEven (|q| / (2 : ℚ) ^ (Int.log 2 |q| - 52)) : ℚ) *
        (2 : ℚ) ^ (Int.log 2 |q| - 52) := by
    intro hc
    have h1 := (abs_le.mp hr).2
    have h2 : |q| / 2 ^ (53 : Nat) ≤ |q| := by
      apply div_le_self hpos.le
      exact one_le_pow₀ (by norm_num)
    have h3 : (2 : ℚ) ^ (1024 : Nat) = 2 * (2 : ℚ) ^ (1023 : Nat) := by ring
    linarith
  rw [if_neg hsmall]
  by_cases hneg : q < 0
  · refine ⟨_, by rw [if_pos hneg], ?_⟩
    have : -((roundHalfEven (|q| / (2 : ℚ) ^ (Int.log 2 |q| - 52)) : ℚ) *
        (2 : ℚ) ^ (Int.log 2 |q| - 52)) - q =
        -((roundHalfEven (|q| / (2 : ℚ) ^ (Int.log 2 |q| - 52)) : ℚ) *
        (2 : ℚ) ^ (Int.log 2 |q| - 52) - |q|) := by
      rw [abs_of_neg hneg]; ring
    rw [this, abs_neg]
    exact hr
  · refine ⟨_, by rw [if_neg hneg], ?_⟩
    have hq' : |q| = q := abs_of_nonneg (not_lt.mp hneg)
    have : (roundHalfEven (|q| / (2 : ℚ) ^ (Int.log 2 |q| - 52)) : ℚ) *
        (2 : ℚ) ^ (Int.log 2 |q| - 52) - q =
        (roundHalfEven (|q| / (2 : ℚ) ^ (Int.log 2 |q| - 52)) : ℚ) *
        (2 : ℚ) ^ (Int.log 2 |q| - 52) - |q| := by
      rw [hq']
    rw [this]
    exact hr
theorem ratio_gap_above (A P n : Int) (hP : 0 < P) (h : (A : ℚ) / P < n) :
    (1 : ℚ) / P ≤ n - (A : ℚ) / P := by
  have hPq : (0 : ℚ) < P := by exact_mod_cast hP
  have h1 : (A : ℚ) < n * P := (div_lt_iff₀ hPq).mp h
  have h2 : A < n * P := by exact_mod_cast h1
  have h3 : A + 1 ≤ n * P := h2
  have h4 : (A : ℚ) + 1 ≤ n * P := by exact_mod_cast h3
  rw [div_le_iff₀ hPq, sub_mul, div_mul_cancel₀ _ hPq.ne']
  linarith

theorem ratio_gap_below (A P n : Int) (hP : 0 < P) (h : (n : ℚ) < (A : ℚ) / P) :
    (1 : ℚ) / P ≤ (A : ℚ) / P - n := by
  have hPq : (0 : ℚ) < P := by exact_mod_cast hP
  have h1 : (n : ℚ) * P < A := (lt_div_iff₀ hPq).mp h
  have h2 : n * P < A := by exact_mod_cast h1
  have h3 : n * P + 1 ≤ A := h2
  have h4 : (n : ℚ) * P + 1 ≤ A := by exact_mod_cast h3
  rw [div_le_iff₀ hPq, sub_mul, div_mul_cancel₀ _ hPq.ne']
  linarith

theorem ceil_toDouble_ratio (A P : Int) (hP : 0 < P) (hP53 : P < 2 ^ 53)
    (hA : |A| < 2 ^ 53) :
    JNum.ceil (toDouble ((A : ℚ) / P)) = .fin (Int.ceil ((A : ℚ) / P)) := by
  have hPq : (0 : ℚ) < P := by exact_mod_cast hP
  have hP1 : (1 : ℚ) ≤ P := by exact_mod_cast hP
  by_cases hz : ∃ z : Int, (A : ℚ) / P = z
  · obtain ⟨z, hz⟩ := hz
    have hzA : |z| ≤ |A| := by
      have h1 : |(z : ℚ)| ≤ |(A : ℚ)| := by
        rw [← hz, abs_div, abs_of_pos hPq]
        exact div_le_self (abs_nonneg _) hP1
      exact_mod_cast h1
    rw [hz, toDouble_intCast z (lt_of_le_of_lt hzA hA)]
    simp [JNum.ceil]
  · have hA0 : A ≠ 0 := by
      intro h
      exact hz ⟨0, by simp [h]⟩
    have hq : (A : ℚ) / P ≠ 0 := div_ne_zero (by exact_mod_cast hA0) hPq.ne'
    have habs : |(A : ℚ) / P| = ((|A| : Int) : ℚ) / P := by
      rw [abs_div, abs_of_pos hPq]; simp
    have hA1 : (1 : ℚ) ≤ ((|A| : Int) : ℚ) := by
      have : (1 : Int) ≤ |A| := Int.one_le_abs hA0
      exact_mod_cast this
    have hA53 : ((|A| : Int) : ℚ) < 2 ^ (53 : Nat) := by exact_mod_cast hA
    have hP53q : (P : ℚ) < 2 ^ (53 : Nat) := by exact_mod_cast hP53
    have hlo : (2 : ℚ) ^ (-1022 : Int) ≤ |(A : ℚ) / P| := by
      rw [habs]
      have h1 : (2 : ℚ) ^ (-1022 : Int) ≤ 1 / 2 ^ (53 : Nat) := by
        rw [zpow_neg, one_div, zpow_ofNat]
        apply inv_anti₀ (by positivity)
        exact pow_le_pow_right₀ (by norm_num) (by norm_num)
      have h2 : (1 : ℚ) / 2 ^ (53 : Nat) ≤ ((|A| : Int) : ℚ) / P := by
        rw [div_le_div_iff₀ (by positivity) hPq]
        nlinarith
      exact le_trans h1 h2
    have hhi : |(A : ℚ) / P| < (2 : ℚ) ^ (1023 : Nat) := by
      rw [habs]
      have h1 : ((|A| : Int) : ℚ) / P ≤ ((|A| : Int) : ℚ) := div_le_self (by linarith) hP1
      have h2 : (2 : ℚ) ^ (53 : Nat) ≤ 2 ^ (1023 : Nat) :=
        pow_le_pow_right₀ (by norm_num) (by norm_num)
      linarith
    obtain ⟨d, hd, hnear⟩ := toDouble_near _ hq hlo hhi
    have hclose : |d - (A : ℚ) / P| < 1 / P := by
      refine lt_of_le_of_lt hnear ?_
      rw [habs, div_div, div_lt_div_iff₀ (by positivity) hPq]
      have : ((|A| : Int) : ℚ) * P < 1 * (P * 2 ^ (53 : Nat)) := by nlinarith
      exact this
    have hceil1 : (A : ℚ) / P ≤ (Int.ceil ((A : ℚ) / P) : Int) := Int.le_ceil _
    have hceil2 : ((Int.ceil ((A : ℚ) / P) : Int) : ℚ) < (A : ℚ) / P + 1 := Int.ceil_lt_add_one _
    have hne : (A : ℚ) / P ≠ (Int.ceil ((A : ℚ) / P) : Int) := fun h => hz ⟨_, h⟩
    have hup := ratio_gap_above A P (Int.ceil ((A : ℚ) / P)) hP (lt_of_le_of_ne hceil1 hne)
    have hdown := ratio_gap_below A P (Int.ceil ((A : ℚ) / P) - 1) hP (by push_cast; linarith)
    push_cast at hdown
    have hd1 := (abs_lt.mp hclose).1
    have hd2 := (abs_lt.mp hclose).2
    rw [hd]
    simp only [JNum.ceil, JNum.fin.injEq, Int.cast_inj]
    rw [Int.ceil_eq_iff]
    constructor <;> linarith

theorem ceil_div_exact (total : Nat) (limit : Int) (htotal : total < 2 ^ 53)
    (h0 : limit ≠ 0) (hlimit : |limit| < 2 ^ 53) :
    JNum.ceil (JNum.div (.fin total) (.fin limit)) =
      .fin (Int.ceil ((total : ℚ) / (limit : ℚ))) := by
  have hq0 : (limit : ℚ) ≠ 0 := by exact_mod_cast h0
  have hT : |(total : Int)| < 2 ^ 53 := by
    rw [abs_of_nonneg (Int.natCast_nonneg _)]
    exact_mod_cast htotal
  simp only [JNum.div, hq0, if_false]
  rcases lt_or_gt_of_ne h0 with hneg | hpos
  · have e : (total : ℚ) / (limit : ℚ) = ((-(total : Int) : Int) : ℚ) / ((-limit : Int) : ℚ) := by
      push_cast
      rw [neg_div_neg_eq]
    rw [e]
    apply ceil_toDouble_ratio
    · omega
    · rw [abs_of_neg hneg] at hlimit; exact hlimit
    · rw [abs_neg]; exact hT
  · have e : (total : ℚ) / (limit : ℚ) = (((total : Int) : Int) : ℚ) / (limit : ℚ) := by
      push_cast; rfl
    rw [e]
    apply ceil_toDouble_ratio
    · exact hpos
    · rw [abs_of_pos hpos] at hlimit; exact hlimit
    · exact hT
/-! ## The list handler on exactly representable integers -/

theorem toDouble_zero : toDouble 0 = .fin 0 := by
  simp [toDouble]

theorem numOr_parseInt (v : Option QVal) (d : Int)
    (hn : |(match parseIntMath (queryText v) with
      | some n => if n = 0 then d else n
      | none => d)| < 2 ^ 53) :
    numOr (parseInt v) (.fin d) =
      .fin ((match parseIntMath (queryText v) with
        | some n => if n = 0 then d else n
        | none => d : Int) : ℚ) := by
  unfold parseInt parseIntText
  cases h : parseIntMath (queryText v) with
  | none => simp [numOr, JNum.truthy]
  | some m =>
    rw [h] at hn
    by_cases hm : m = 0
    · subst hm
      simp [numOr, JNum.truthy, toDouble_zero]
    · simp only [hm, if_false] at hn ⊢
      have hq : (m : ℚ) ≠ 0 := by exact_mod_cast hm
      simp [numOr, JNum.truthy, toDouble_intCast m hn, hq]

theorem skip_exact (page limit : Int) (hlimit : limit ≠ 0)
    (hskip : |(page - 1) * limit| < 2 ^ 53) :
    JNum.mul (JNum.sub (.fin page) 1) (.fin limit) = .fin (((page - 1) * limit : Int) : ℚ) := by
  have h1 : |page - 1| < 2 ^ 53 := by
    have hl : 1 ≤ |limit| := Int.one_le_abs hlimit
    have : |page - 1| ≤ |page - 1| * |limit| := le_mul_of_one_le_right (abs_nonneg _) hl
    rw [abs_mul] at hskip
    omega
  have e1 : JNum.sub (.fin page) 1 = toDouble (((page - 1 : Int) : ℚ)) := by
    show toDouble ((page : ℚ) - ((1 : Nat) : ℚ)) = _
    push_cast
    rfl
  rw [e1, toDouble_intCast _ h1]
  show toDouble (((page - 1 : Int) : ℚ) * (limit : ℚ)) = _
  have e2 : ((page - 1 : Int) : ℚ) * (limit : ℚ) = (((page - 1) * limit : Int) : ℚ) := by
    push_cast; ring
  rw [e2, toDouble_intCast _ hskip]

theorem paramInt_ne_zero (query : List (String × QVal)) (name : String) (d : Int)
    (hd : d ≠ 0) : paramInt query name d ≠ 0 := by
  unfold paramInt
  cases parseIntMath (queryText (query.lookup name)) with
  | none => exact hd
  | some m =>
    by_cases hm : m = 0
    · simp [hm, hd]
    · simp [hm]

theorem listUsers_exact (find : Find) (countDocuments : CountDocuments)
    (query : List (String × QVal))
    (hpage : |paramInt query "page" 1| < 2 ^ 53)
    (hlimit : |paramInt query "limit" 10| < 2 ^ 53)
    (hskip : |(paramInt query "page" 1 - 1) * paramInt query "limit" 10| < 2 ^ 53) :
    listUsers find countDocuments query =
      match find (.fin (((paramInt query "page" 1 - 1) * paramInt query "limit" 10 : Int) : ℚ))
          (.fin (paramInt query "limit" 10)) with
      | .error error =>
        ⟨[.find (.fin (((paramInt query "page" 1 - 1) * paramInt query "limit" 10 : Int) : ℚ))
            (.fin (paramInt query "limit" 10))], .next error⟩
      | .ok users =>
        match countDocuments with
        | .error error =>
          ⟨[.find (.fin (((paramInt query "page" 1 - 1) * paramInt query "limit" 10 : Int) : ℚ))
              (.fin (paramInt query "limit" 10)), .countDocuments], .next error⟩
        | .ok total =>
          ⟨[.find (.fin (((paramInt query "page" 1 - 1) * paramInt query "limit" 10 : Int) : ℚ))
              (.fin (paramInt query "limit" 10)), .countDocuments],
            .respond (num 200)
              (obj [("success", bool true), ("statusCode", num 200), ("data", arr users),
                    ("pagination", obj [("currentPage", num (.fin (paramInt query "page" 1))),
                      ("limit", num (.fin (paramInt query "limit" 10))),
                      ("total", num (.fin total)),
                      ("pages", num (JNum.ceil (JNum.div (.fin total)
                        (.fin (paramInt query "limit" 10)))))])])⟩ := by
  have hp := numOr_parseInt (query.lookup "page") 1 hpage
  have hl := numOr_parseInt (query.lookup "limit") 10 hlimit
  have hp' : numOr (parseInt (query.lookup "page")) 1 = .fin (paramInt query "page" 1) := by
    have e : (1 : JNum) = .fin ((1 : Int) : ℚ) := by
      show JNum.fin ((1 : Nat) : ℚ) = _
      push_cast; rfl
    rw [e]; exact hp
  have hl' : numOr (parseInt (query.lookup "limit")) 10 = .fin (paramInt query "limit" 10) := by
    have e : (10 : JNum) = .fin ((10 : Int) : ℚ) := by
      show JNum.fin ((10 : Nat) : ℚ) = _
      push_cast; rfl
    rw [e]; exact hl
  have hs := skip_exact (paramInt query "page" 1) (paramInt query "limit" 10)
    (paramInt_ne_zero query "limit" 10 (by norm_num)) hskip
  simp only [listUsers, hp', hl', hs]

theorem toDouble_beyond_safe : toDouble 9007199254740993 = .fin 9007199254740992 := by
  have hq : (9007199254740993 : ℚ) ≠ 0 := by norm_num
  have habs : |(9007199254740993 : ℚ)| = 9007199254740993 := abs_of_pos (by norm_num)
  have hpos : (0 : ℚ) < 9007199254740993 := by norm_num
  have hlo : (2 : ℚ) ^ (-1022 : Int) ≤ |(9007199254740993 : ℚ)| := by
    rw [habs, zpow_neg]
    refine le_trans (inv_le_one_of_one_le₀ (one_le_zpow₀ (by norm_num) (by norm_num))) ?_
    norm_num
  have h53 : (53 : Int) ≤ Int.log 2 (9007199254740993 : ℚ) :=
    (Int.zpow_le_iff_le_log (b := 2) (by norm_num) (x := 53) hpos).mp (by norm_num)
  have h54 : Int.log 2 (9007199254740993 : ℚ) < 54 :=
    (Int.lt_zpow_iff_log_lt (b := 2) (by norm_num) (x := 54) hpos).mp (by norm_num)
  have hlog : Int.log 2 (9007199254740993 : ℚ) = 53 := by omega
  have hfloor : Int.floor ((9007199254740993 : ℚ) / 2) = 4503599627370496 := by
    rw [Int.floor_eq_iff]; norm_num
  have hround : roundHalfEven ((9007199254740993 : ℚ) / 2) = 4503599627370496 := by
    unfold roundHalfEven
    rw [hfloor]
    norm_num
  rw [toDouble_unfold _ hq hlo, habs, hlog]
  norm_num [hround]

theorem parseInt_beyond_safe :
    parseInt (some (.str "9007199254740993")) = .fin 9007199254740992 := by
  have h : parseIntMath "9007199254740993" = some 9007199254740993 := by decide
  simp only [parseInt, parseIntText, queryText, QVal.text, h]
  exact_mod_cast toDouble_beyond_safe

theorem parseInt_one : parseInt (some (.str "1")) = .fin 1 := by
  have h : parseIntMath "1" = some 1 := by decide
  simp only [parseInt, parseIntText, queryText, QVal.text, h]
  exact_mod_cast toDouble_intCast 1 (by norm_num)

theorem sub_one_at_two53 : JNum.sub (.fin 9007199254740992) 1 = .fin 9007199254740991 := by
  show toDouble ((9007199254740992 : ℚ) - ((1 : Nat) : ℚ)) = _
  have := toDouble_intCast 9007199254740991 (by norm_num)
  norm_num at this ⊢
  exact this

theorem mul_one_below_two53 :
    JNum.mul (.fin 9007199254740991) (.fin 1) = .fin 9007199254740991 := by
  show toDouble ((9007199254740991 : ℚ) * 1) = _
  have := toDouble_intCast 9007199254740991 (by norm_num)
  norm_num at this ⊢
  exact this

theorem numOr_two53 : numOr (.fin 9007199254740992) 1 = .fin 9007199254740992 := by
  simp [numOr, JNum.truthy]

theorem numOr_one : numOr (.fin 1) 10 = .fin 1 := by
  simp [numOr, JNum.truthy]

theorem ceil_zero_div_one : JNum.ceil (JNum.div (.fin 0) (.fin 1)) = .fin 0 := by
  simp [JNum.div, JNum.ceil, toDouble_zero]
/-! ## Properties of the service -/

/-- C1: an operation whose `updateOne` field (or, with no `updateOne`, whose
`updateMany` field) is an object with the update object `u` is translated to an
operation of the same kind with the same filter whose update is `{$set: S}`,
where the keys of `S` are the keys of `u` plus `updatedAt`, `S` agrees with `u`
under every key other than `updatedAt`, and `S.updatedAt` is the server time
whatever `u` holds under `updatedAt`; when the keys of `u` are distinct, `S` is
`u` with the value under `updatedAt` replaced in place, or with `updatedAt`
added last. -/
theorem translateOp_update_sets_fields_and_stamps (now : Int)
    (op payload u : List (String × JVal)) :
    ∃ S,
      (lookupProp op "updateOne" = obj payload → lookupProp payload "update" = obj u →
        translateOp now (obj op) =
          .ok (obj [("updateOne", obj [("filter", lookupProp payload "filter"),
                                       ("update", obj [("$set", obj S)])])])) ∧
      ((lookupProp op "updateOne").truthy = false →
        lookupProp op "updateMany" = obj payload → lookupProp payload "update" = obj u →
        translateOp now (obj op) =
          .ok (obj [("updateMany", obj [("filter", lookupProp payload "filter"),
                                        ("update", obj [("$set", obj S)])])])) ∧
      (∀ k, k ∈ S.map Prod.fst ↔ k ∈ u.map Prod.fst ∨ k = "updatedAt") ∧
      (∀ k, k ≠ "updatedAt" → lookupProp S k = lookupProp u k) ∧
      lookupProp S "updatedAt" = date now ∧
      ((u.map Prod.fst).Nodup →
        S = if "updatedAt" ∈ u.map Prod.fst
          then u.map (fun p => if p.1 = "updatedAt" then ("updatedAt", date now) else p)
          else u ++ [("updatedAt", date now)]) := by
  obtain ⟨S, hS, h1, h2, h3, h4⟩ := setDoc_obj now u
  refine ⟨S, ?_, ?_, h1, h2, h3, h4⟩
  · intro hone hupd
    have f1 : field (obj op) "updateOne" = obj payload := hone
    have f2 : field (obj payload) "update" = obj u := hupd
    rw [translateOp_eq now (obj op) (by simp) (by simp), f1]
    simp only [truthy, if_true, wrapUpdate, f2, hS]
    rfl
  · intro hone hmany hupd
    have f1 : (field (obj op) "updateOne").truthy = false := hone
    have f2 : field (obj op) "updateMany" = obj payload := hmany
    have f3 : field (obj payload) "update" = obj u := hupd
    rw [translateOp_eq now (obj op) (by simp) (by simp), f1, f2]
    simp only [truthy, Bool.false_eq_true, if_false, if_true, wrapUpdate, f3, hS]
    rfl

/-- C1 at a concrete operation: the client fields are kept, in place, and the
client value of `updatedAt` is replaced by the server time. -/
theorem translateOp_update_sets_fields_and_stamps_witness :
    translateOp 1762300000000
        (obj [("updateOne", obj [("filter", obj [("email", str "a@x.com")]),
          ("update", obj [("updatedAt", str "1999-01-01"), ("walletBalance", num 50),
                          ("role", str "admin")])])]) =
      .ok (obj [("updateOne", obj [("filter", obj [("email", str "a@x.com")]),
          ("update", obj [("$set", obj [("updatedAt", date 1762300000000),
                                        ("walletBalance", num 50),
                                        ("role", str "admin")])])])]) := by
  obtain ⟨S, h1, _, _, _, _, h6⟩ := translateOp_update_sets_fields_and_stamps 1762300000000
    [("updateOne", obj [("filter", obj [("email", str "a@x.com")]),
          ("update", obj [("updatedAt", str "1999-01-01"), ("walletBalance", num 50),
                          ("role", str "admin")])])]
    [("filter", obj [("email", str "a@x.com")]),
          ("update", obj [("updatedAt", str "1999-01-01"), ("walletBalance", num 50),
                          ("role", str "admin")])]
    [("updatedAt", str "1999-01-01"), ("walletBalance", num 50), ("role", str "admin")]
  rw [h1 rfl rfl, h6 (by decide)]
  rfl

/-- C2, at the failing input: a body that is a single user object, not an
array, is wrapped by `POST /bulk-create` into a one-element array and submitted
to `insertMany`; with a store that inserts it the response is 201, not 400.
`PUT /bulk-update` answers the same body with 400 and no store call. -/
theorem bulkCreate_object_body_reaches_store :
    bulkCreate (fun docs _ => .ok docs)
        (obj [("fullName", str "Ann Lee"), ("email", str "ann@x.com"),
              ("password", str "pw"), ("phone", str "9876543210")]) =
      ⟨[.insertMany [obj [("fullName", str "Ann Lee"), ("email", str "ann@x.com"),
                          ("password", str "pw"), ("phone", str "9876543210")]]
          (obj [("ordered", bool false)])],
        .respond (num 201)
          (obj [("success", bool true), ("statusCode", num 201),
                ("message", str "Successfully created 1 users"),
                ("data", arr [obj [("fullName", str "Ann Lee"), ("email", str "ann@x.com"),
                                   ("password", str "pw"), ("phone", str "9876543210")]])])⟩ ∧
    bulkUpdate (fun _ _ => .ok (obj [])) (fun _ => 0)
        (obj [("fullName", str "Ann Lee"), ("email", str "ann@x.com"),
              ("password", str "pw"), ("phone", str "9876543210")]) =
      ⟨[], .respond (num 400)
          (obj [("success", bool false), ("statusCode", num 400),
                ("message", str "Request body must be an array of update operations")])⟩ := by
  exact ⟨rfl, rfl⟩

/-- C3, at the failing input: three records, the second repeating the email of
the first.  The store inserts the other two and throws its bulk write failure,
named `MongoBulkWriteError`; the `catch` block tests for the name
`BulkWriteError`, so no 207 is sent, the failure is forwarded with
`next(error)`, and the classifier throws on it.  On a failure of the tested
name the inserted documents are read from `error.result.insertedDocs`, where
there are none, and the 207 reports `insertedCount = 0`. -/
theorem bulkCreate_duplicate_not_reported :
    bulkCreate (fun _ _ => .error (duplicateFailure "MongoBulkWriteError"))
        (arr duplicateBatch) =
      ⟨[.insertMany duplicateBatch unorderedOptions],
        .next (duplicateFailure "MongoBulkWriteError")⟩ ∧
    errorHandler (duplicateFailure "MongoBulkWriteError") = .error notAnObject ∧
    bulkCreate (fun _ _ => .error (duplicateFailure "BulkWriteError")) (arr duplicateBatch) =
      ⟨[.insertMany duplicateBatch unorderedOptions],
        .respond (num 207)
          (obj [("success", bool false), ("statusCode", num 207),
                ("message", str "Partial bulk create - some documents failed"),
                ("insertedCount", num 0), ("failedCount", num 1),
                ("insertedDocs", arr []),
                ("errors", arr [obj [("index", num 1),
                  ("errmsg",
                    str "E11000 duplicate key error collection: users index: email_1")]])])⟩ := by
  exact ⟨rfl, rfl, rfl⟩

/-- C4, at the failing input: the handler of `PUT /bulk-update` hands its two
translated operations to `bulkWrite` with no options, so the batch runs in the
ordered mode of the store; when the operation at index 0 fails, the operation
at index 1 is not attempted.  `POST /bulk-create` passes `{ordered: false}`,
under which both are attempted. -/
theorem bulkUpdate_batch_is_ordered (bulkWrite : BulkWrite) :
    (bulkUpdate bulkWrite (fun _ => 0)
        (arr [obj [("updateOne", obj [("filter", obj [("email", str "a@x.com")]),
                                      ("update", obj [("email", str "b@x.com")])])],
              obj [("updateOne", obj [("filter", obj [("email", str "c@x.com")]),
                                      ("update", obj [("role", str "admin")])])]])).calls =
      [.bulkWrite
        [obj [("updateOne", obj [("filter", obj [("email", str "a@x.com")]),
           ("update", obj [("$set", obj [("email", str "b@x.com"), ("updatedAt", date 0)])])])],
         obj [("updateOne", obj [("filter", obj [("email", str "c@x.com")]),
           ("update", obj [("$set", obj [("role", str "admin"), ("updatedAt", date 0)])])])]]
        undefined] ∧
    attempted (orderedMode undefined) (fun j => j == 0) 0 2 = [0] ∧
    attempted (orderedMode unorderedOptions) (fun j => j == 0) 0 2 = [0, 1] := by
  refine ⟨bulkUpdate_calls bulkWrite _ _ _ rfl (by simp), rfl, rfl⟩

/-- C5, at the failing input: a stored record has `walletBalance` 10; the
handler of `PUT /bulk-update` submits `$set: {walletBalance: -5}` unchanged to
the raw collection, and the record then holds a negative balance. -/
theorem bulkUpdate_writes_negative_walletBalance (bulkWrite : BulkWrite) :
    walletBalanceOk (obj [("email", str "a@x.com"), ("walletBalance", num 10)]) = true ∧
    (bulkUpdate bulkWrite (fun _ => 0)
        (arr [obj [("updateOne", obj [("filter", obj [("email", str "a@x.com")]),
                                      ("update", obj [("walletBalance", num (-5))])])]])).calls =
      [.bulkWrite
        [obj [("updateOne", obj [("filter", obj [("email", str "a@x.com")]),
           ("update", obj [("$set", obj [("walletBalance", num (-5)),
                                          ("updatedAt", date 0)])])])]]
        undefined] ∧
    rawWrite [obj [("email", str "a@x.com"), ("walletBalance", num 10)]]
        (obj [("updateOne", obj [("filter", obj [("email", str "a@x.com")]),
           ("update", obj [("$set", obj [("walletBalance", num (-5)),
                                          ("updatedAt", date 0)])])])]) =
      [obj [("email", str "a@x.com"), ("walletBalance", num (-5)), ("updatedAt", date 0)]] ∧
    walletBalanceOk
      (obj [("email", str "a@x.com"), ("walletBalance", num (-5)), ("updatedAt", date 0)]) =
      false := by
  refine ⟨rfl, bulkUpdate_calls bulkWrite _ _ _ rfl (by simp), ?_, rfl⟩
  rfl

/-- C6, counterexample: a duplicate-key failure with code 11000 that carries
`keyValue` and no `keyPattern` is not answered 409; the classifier throws on
it. -/
theorem errorHandler_duplicate_without_keyPattern :
    errorHandler (obj [("name", str "MongoServerError"), ("code", num 11000),
                       ("message", str "E11000 duplicate key error"),
                       ("keyValue", obj [("email", str "ann@x.com")])]) =
      .error notAnObject := by
  rfl

/-- C6, amended: for a failure that carries what its branch reads, a
`ValidationError` whose `errors` map is an object with distinct keys and
entries that are not null yields 400 with the list of its field messages;
otherwise code 11000 with a `keyPattern` object that has a first key yields 409
with `<field> already exists`, the field being that key; otherwise a
`CastError` yields 400 with `Invalid ID format`; otherwise the status is the
own `statusCode` of the failure when it is truthy, as tested by `||`, and 500
if not, and the message is its own `message` when it is truthy and
`Internal server error` if not. -/
theorem errorHandler_classifies (err : JVal) (hnull : err ≠ null) (hundef : err ≠ undefined) :
    (∀ es : List (String × JVal), field err "name" = str "ValidationError" →
      field err "errors" = obj es → (es.map Prod.fst).Nodup →
      (∀ p ∈ es, p.2 ≠ null ∧ p.2 ≠ undefined) →
      errorHandler err = .ok (.respond (num 400)
        (obj [("success", bool false), ("statusCode", num 400),
              ("message", str "Validation error"),
              ("errors", arr (es.map (fun p => field p.2 "message")))]))) ∧
    (∀ (k : String) (v : JVal) (rest : List (String × JVal)),
      (field err "name").strictEqStr "ValidationError" = false →
      field err "code" = num 11000 →
      field err "keyPattern" = obj ((k, v) :: rest) →
      errorHandler err = .ok (.respond (num 409)
        (obj [("success", bool false), ("statusCode", num 409),
              ("message", str (k ++ " already exists"))]))) ∧
    ((field err "code").strictEqNum 11000 = false →
      field err "name" = str "CastError" →
      errorHandler err = .ok (.respond (num 400)
        (obj [("success", bool false), ("statusCode", num 400),
              ("message", str "Invalid ID format")]))) ∧
    ((field err "name").strictEqStr "ValidationError" = false →
      (field err "code").strictEqNum 11000 = false →
      (field err "name").strictEqStr "CastError" = false →
      errorHandler err = .ok (.respond
        (if (field err "statusCode").truthy then field err "statusCode" else num 500)
        (obj [("success", bool false),
              ("statusCode",
                if (field err "statusCode").truthy then field err "statusCode" else num 500),
              ("message",
                if (field err "message").truthy then field err "message"
                else str "Internal server error")]))) := by
  have g : ∀ k, getProp err k = .ok (field err k) := fun k => getProp_ok err k hnull hundef
  refine ⟨?_, ?_, ?_, ?_⟩
  · intro es hname herrors hnodup hvals
    have hv : ∀ v ∈ (ownKeys (obj es)).map (lookupProp (ownProps (obj es))),
        v ≠ null ∧ v ≠ undefined := by
      intro v hv
      simp only [ownKeys, ownProps, map_lookupProp_keys es hnodup, List.mem_map] at hv
      obtain ⟨p, hp, rfl⟩ := hv
      exact hvals p hp
    have hm := mapExcept_message _ hv
    simp only [ownKeys, ownProps, map_lookupProp_keys es hnodup, List.map_map] at hm
    simp only [errorHandler, g, hname, herrors, strictEqStr, beq_self_eq_true, if_true,
      objectValues, ownKeys, ownProps, map_lookupProp_keys es hnodup, hm, bind, Except.bind,
      pure, Except.pure]
    rfl
  · intro k v rest hname hcode hkp
    have hnum : (num 11000).strictEqNum 11000 = true := rfl
    simp only [errorHandler, g, hname, hcode, hkp, hnum, if_true,
      objectKeys, ownKeys, ownProps, List.map_cons, firstKeyText, bind, Except.bind, pure,
      Except.pure, Bool.false_eq_true, if_false]
  · intro hcode hname
    simp only [errorHandler, g, hname, hcode, strictEqStr, bind, Except.bind, pure,
      Except.pure, Bool.false_eq_true, if_false, beq_self_eq_true, if_true]
    rfl
  · intro hname hcode hcast
    simp only [errorHandler, g, hname, hcode, hcast, bind, Except.bind, pure,
      Except.pure, Bool.false_eq_true, if_false, orElse]

/-- C6, the amended statement at a duplicate-key failure on the `email` index. -/
theorem errorHandler_classifies_witness :
    errorHandler (obj [("name", str "MongoServerError"), ("code", num 11000),
                       ("keyPattern", obj [("email", num 1)])]) =
      .ok (.respond (num 409)
        (obj [("success", bool false), ("statusCode", num 409),
              ("message", str "email already exists")])) :=
  (errorHandler_classifies
    (obj [("name", str "MongoServerError"), ("code", num 11000),
          ("keyPattern", obj [("email", num 1)])])
    (by simp) (by simp)).2.1 "email" (num 1) [] rfl rfl rfl

/-- C7, at the failing inputs: a failure with code 11000 and no `keyPattern`,
and a failure named `ValidationError` with no `errors` map, make the classifier
throw a `TypeError` before any response is sent. -/
theorem errorHandler_throws_on_missing_fields :
    errorHandler (obj [("name", str "MongoBulkWriteError"), ("code", num 11000),
                       ("message", str "E11000 duplicate key error")]) =
      .error notAnObject ∧
    errorHandler (obj [("name", str "ValidationError"), ("message", str "invalid")]) =
      .error notAnObject := by
  exact ⟨rfl, rfl⟩

/-- C8, counterexample: for `page=9007199254740993` and `limit=1` the integer
parsed from the page parameter is 9007199254740993, which is not a number of
the engine; the handler works with 9007199254740992, asks the store to skip
9007199254740991 records, not `(page-1)*limit = 9007199254740992`, and reports
`currentPage = 9007199254740992`. -/
theorem listUsers_rounds_large_page :
    paramInt [("page", .str "9007199254740993"), ("limit", .str "1")] "page" 1 =
      9007199254740993 ∧
    listUsers (fun _ _ => .ok []) (.ok 0)
        [("page", .str "9007199254740993"), ("limit", .str "1")] =
      ⟨[.find (.fin 9007199254740991) (.fin 1), .countDocuments],
        .respond (num 200)
          (obj [("success", bool true), ("statusCode", num 200), ("data", arr []),
                ("pagination", obj [("currentPage", num (.fin 9007199254740992)),
                  ("limit", num (.fin 1)), ("total", num (.fin 0)),
                  ("pages", num (.fin 0))])])⟩ := by
  refine ⟨by decide, ?_⟩
  have hl : List.lookup "limit" [("page", QVal.str "9007199254740993"), ("limit", QVal.str "1")]
      = some (.str "1") := rfl
  have hp : List.lookup "page" [("page", QVal.str "9007199254740993"), ("limit", QVal.str "1")]
      = some (.str "9007199254740993") := rfl
  simp only [listUsers, hl, hp, parseInt_beyond_safe, parseInt_one, numOr_two53, numOr_one,
    sub_one_at_two53, mul_one_below_two53, ceil_zero_div_one, Nat.cast_zero]

/-- C8, amended: when `page` and `limit`, the integers parsed from the query
parameters (1 and 10 when a parameter is absent, unparseable or 0), and the
product `(page-1)*limit` are all below `2^53` in magnitude, the limit is not 0,
the handler asks the store to skip `(page-1)*limit` records and return at most
`limit`, and when the store answers with the records and a total below `2^53`
it reports `currentPage = page`, `limit`, `total` and
`pages = ceil(total/limit)`. -/
theorem listUsers_pagination (find : Find) (countDocuments : CountDocuments)
    (query : List (String × QVal))
    (hpage : |paramInt query "page" 1| < 2 ^ 53)
    (hlimit : |paramInt query "limit" 10| < 2 ^ 53)
    (hskip : |(paramInt query "page" 1 - 1) * paramInt query "limit" 10| < 2 ^ 53) :
    paramInt query "limit" 10 ≠ 0 ∧
    (listUsers find countDocuments query).calls.head? =
      some (.find (.fin (((paramInt query "page" 1 - 1) * paramInt query "limit" 10 : Int) : ℚ))
        (.fin (paramInt query "limit" 10))) ∧
    (∀ (users : List JVal) (total : Nat), total < 2 ^ 53 →
      find (.fin (((paramInt query "page" 1 - 1) * paramInt query "limit" 10 : Int) : ℚ))
        (.fin (paramInt query "limit" 10)) = .ok users →
      countDocuments = .ok total →
      (listUsers find countDocuments query).outcome =
        .respond (num 200)
          (obj [("success", bool true), ("statusCode", num 200), ("data", arr users),
                ("pagination", obj [("currentPage", num (.fin (paramInt query "page" 1))),
                  ("limit", num (.fin (paramInt query "limit" 10))),
                  ("total", num (.fin total)),
                  ("pages", num (.fin (Int.ceil
                    ((total : ℚ) / (paramInt query "limit" 10 : ℚ)))))])])) := by
  have hne := paramInt_ne_zero query "limit" 10 (by norm_num)
  have hrun := listUsers_exact find countDocuments query hpage hlimit hskip
  refine ⟨hne, ?_, ?_⟩
  · rw [hrun]
    cases find _ _ with
    | error e => rfl
    | ok users => cases countDocuments <;> rfl
  · intro users total htotal hfind hcount
    rw [hrun, hfind, hcount]
    simp only [ceil_div_exact total _ htotal hne hlimit]

/-- C8, the amended statement at `page=2`, `limit=5` against twelve records:
the store is asked to skip 5 and return at most 5, and the response holds the
five records numbered 5 to 9 and `pages = 3`. -/
theorem listUsers_pagination_witness :
    (listUsers (memFind twelveUsers) (.ok 12)
        [("page", .str "2"), ("limit", .str "5")]).calls.head? =
      some (.find (.fin 5) (.fin 5)) ∧
    (listUsers (memFind twelveUsers) (.ok 12)
        [("page", .str "2"), ("limit", .str "5")]).outcome =
      .respond (num 200)
        (obj [("success", bool true), ("statusCode", num 200),
              ("data", arr [obj [("_id", num (.fin 5))], obj [("_id", num (.fin 6))],
                            obj [("_id", num (.fin 7))], obj [("_id", num (.fin 8))],
                            obj [("_id", num (.fin 9))]]),
              ("pagination", obj [("currentPage", num (.fin 2)), ("limit", num (.fin 5)),
                ("total", num (.fin 12)), ("pages", num (.fin 3))])]) := by
  have hp : paramInt [("page", .str "2"), ("limit", .str "5")] "page" 1 = 2 := by decide
  have hl : paramInt [("page", .str "2"), ("limit", .str "5")] "limit" 10 = 5 := by decide
  obtain ⟨_, h2, h3⟩ := listUsers_pagination (memFind twelveUsers) (.ok 12)
    [("page", .str "2"), ("limit", .str "5")]
    (by rw [hp]; norm_num) (by rw [hl]; norm_num) (by rw [hp, hl]; norm_num)
  rw [hp, hl] at h2 h3
  have hceil : Int.ceil ((12 : ℚ) / 5) = 3 := by
    rw [Int.ceil_eq_iff]; norm_num
  have hfind : memFind twelveUsers (.fin ((((2 : Int) - 1) * 5 : Int) : ℚ)) (.fin ((5 : Int) : ℚ)) =
      .ok [obj [("_id", num (.fin 5))], obj [("_id", num (.fin 6))],
           obj [("_id", num (.fin 7))], obj [("_id", num (.fin 8))],
           obj [("_id", num (.fin 9))]] := by
    norm_num [memFind, twelveUsers, List.range, List.range.loop]
    rfl
  refine ⟨?_, ?_⟩
  · rw [h2]; norm_num
  · rw [h3 _ 12 (by norm_num) hfind rfl]
    norm_num [hceil]

/-- C9, counterexample: the array `[null]` is a non-empty operations array and
its translation throws a `TypeError` instead of producing a list. -/
theorem translateOps_null_throws :
    translateOps (fun _ => 0) [null] =
      .error (typeError "Cannot read properties of null (reading 'updateOne')") := by
  rfl

/-- C9, amended: for every operations array with no `null` (or `undefined`)
element the translation produces a list of the same length, its entry at index
`i` is the translation of the input operation at index `i` at the time read for
that index, an operation with neither an `updateOne` nor an `updateMany` field
is passed through identical, and for a non-empty array that list is what the
handler submits to `bulkWrite`. -/
theorem translateOps_pointwise (now : Nat → Int) (ops : List JVal)
    (hnn : ∀ op ∈ ops, op ≠ null ∧ op ≠ undefined) :
    ∃ out, translateOps now ops = .ok out ∧ out.length = ops.length ∧
      (∀ (i : Nat) (op : JVal), ops[i]? = some op →
        ∃ o, translateOp (now i) op = .ok o ∧ out[i]? = some o) ∧
      (∀ (i : Nat) (op : JVal), ops[i]? = some op → field op "updateOne" = undefined →
        field op "updateMany" = undefined → out[i]? = some op) ∧
      (ops ≠ [] → ∀ bulkWrite : BulkWrite,
        (bulkUpdate bulkWrite now (arr ops)).calls = [.bulkWrite out undefined]) := by
  obtain ⟨out, hout⟩ := translateFrom_total now ops 0 hnn
  obtain ⟨hlen, hget⟩ := translateFrom_get now ops out 0 hout
  refine ⟨out, hout, hlen, ?_, ?_, ?_⟩
  · intro i op hi
    simpa using hget i op hi
  · intro i op hi h1 h2
    obtain ⟨o, ho, hoi⟩ := hget i op hi
    have hop := hnn op (List.getElem?_mem hi)
    rw [translateOp_eq _ _ hop.1 hop.2, h1, h2] at ho
    simp only [truthy, Bool.false_eq_true, if_false, Except.ok.injEq] at ho
    rw [hoi, ho]
  · intro hne bulkWrite
    exact bulkUpdate_calls bulkWrite now ops out hout hne

/-- C9, the amended statement at a concrete request: a `deleteOne` operation is
passed through and an `updateOne` is translated in place. -/
theorem translateOps_pointwise_witness :
    ∃ out, translateOps (fun i => 1000 + i)
        [obj [("deleteOne", obj [("filter", obj [("email", str "a@x.com")])])],
         obj [("updateOne", obj [("filter", obj []), ("update", obj [("role", str "admin")])])]] =
        .ok out ∧ out.length = 2 ∧
      out[0]? = some (obj [("deleteOne", obj [("filter", obj [("email", str "a@x.com")])])]) := by
  obtain ⟨out, h1, h2, _, h4, _⟩ := translateOps_pointwise (fun i => 1000 + i)
    [obj [("deleteOne", obj [("filter", obj [("email", str "a@x.com")])])],
     obj [("updateOne", obj [("filter", obj []), ("update", obj [("role", str "admin")])])]]
    (by intro op hop; simp at hop; rcases hop with h | h <;> subst h <;> simp)
  exact ⟨out, h1, h2, h4 0 _ rfl rfl rfl⟩

/-- C10, counterexample: two requests that differ only in the `updatedAt`
value carried by a `replaceOne` operation are translated, at the same server
time, to different operation lists, and each list carries the value the client
supplied. -/
theorem translateOps_passes_client_updatedAt :
    translateOps (fun _ => 0)
        [obj [("replaceOne", obj [("filter", obj []),
          ("replacement", obj [("updatedAt", str "1999-01-01")])])]] ≠
      translateOps (fun _ => 0)
        [obj [("replaceOne", obj [("filter", obj []),
          ("replacement", obj [("updatedAt", str "2099-01-01")])])]] ∧
    translateOps (fun _ => 0)
        [obj [("replaceOne", obj [("filter", obj []),
          ("replacement", obj [("updatedAt", str "1999-01-01")])])]] =
      .ok [obj [("replaceOne", obj [("filter", obj []),
          ("replacement", obj [("updatedAt", str "1999-01-01")])])]] := by
  constructor
  · intro h
    have h2 : (Except.ok [obj [("replaceOne", obj [("filter", obj []),
          ("replacement", obj [("updatedAt", str "1999-01-01")])])]] : Except JVal (List JVal)) =
        Except.ok [obj [("replaceOne", obj [("filter", obj []),
          ("replacement", obj [("updatedAt", str "2099-01-01")])])]] := h
    simp at h2
  · rfl

/-- C10, amended: two requests whose operations are pairwise identical, or the
same `updateOne` or `updateMany` with updates that differ only in the value
given for the top-level `updatedAt`, are translated at the same server time to
the same result, and the `updatedAt` set by every translated `updateOne` or
`updateMany` is the server time read for its index.  Operations of any other
shape are passed through as sent. -/
theorem translateOps_ignores_client_updatedAt (now : Nat → Int) (ops1 ops2 : List JVal)
    (h : List.Forall₂ opsAlike ops1 ops2) :
    translateOps now ops1 = translateOps now ops2 ∧
      ∀ out, translateOps now ops1 = .ok out →
        ∀ (i : Nat) (kind : String) (flt upd : JVal),
          kind = "updateOne" ∨ kind = "updateMany" →
          ops1[i]? = some (obj [(kind, obj [("filter", flt), ("update", upd)])]) →
          ∃ S, out[i]? =
              some (obj [(kind, obj [("filter", flt), ("update", obj [("$set", obj S)])])]) ∧
            lookupProp S "updatedAt" = date (now i) := by
  refine ⟨opsAlike_translateFrom now ops1 ops2 h 0, ?_⟩
  intro out hout i kind flt upd hkind hi
  obtain ⟨_, hget⟩ := translateFrom_get now ops1 out 0 hout
  obtain ⟨o, ho, hoi⟩ := hget i _ hi
  obtain ⟨S, h1, h2, _, _, h5⟩ := translateOp_stamps (now (0 + i)) flt upd
  rw [Nat.zero_add] at ho h1 h2 h5
  refine ⟨S, ?_, h5⟩
  rw [hoi]
  rcases hkind with hk | hk
  · subst hk
    rw [h1] at ho
    rw [← Except.ok.inj ho]
  · subst hk
    rw [h2] at ho
    rw [← Except.ok.inj ho]

/-- C10, the amended statement at a concrete pair of requests: the client
values `1999-01-01` and `2099-01-01` for `updatedAt` give the same operation
list. -/
theorem translateOps_ignores_client_updatedAt_witness :
    translateOps (fun _ => 1762300000000)
        [obj [("updateOne", obj [("filter", obj [("email", str "a@x.com")]),
          ("update", obj [("walletBalance", num 50), ("updatedAt", str "1999-01-01")])])]] =
      translateOps (fun _ => 1762300000000)
        [obj [("updateOne", obj [("filter", obj [("email", str "a@x.com")]),
          ("update", obj [("walletBalance", num 50), ("updatedAt", str "2099-01-01")])])]] :=
  (translateOps_ignores_client_updatedAt (fun _ => 1762300000000) _ _
    (List.Forall₂.cons
      (Or.inr ⟨"updateOne", obj [("email", str "a@x.com")],
        [("walletBalance", num 50), ("updatedAt", str "1999-01-01")],
        [("walletBalance", num 50), ("updatedAt", str "2099-01-01")],
        Or.inl rfl, rfl, rfl,
        ⟨rfl, fun _ => rfl, rfl, fun h => absurd rfl h, trivial⟩⟩)
      List.Forall₂.nil)).1

end BulkUsers
